import Mathlib

/-! TranslucentTB: the appearance decision engine

A shallow embedding of `src/TranslucentTB/main.cpp`: the global `run` state, the
function-local statics (`counter`, `is_normal`, `cached_peek`, `cached_taskbar`),
and the functions `SetWindowBlur`, `TogglePeek`, `EnumWindowsProcess`,
`SetTaskbarBlur` and the restore block at the end of `wWinMain`.

Conventions
* `uint32_t` values are `Nat` reduced `% 2 ^ 32`, `uint8_t` values `% 2 ^ 8`.
* A `Window` is its handle; `Window::NullWindow` is handle `0`.
* `std::unordered_map` is an association list read and written at the first
  entry with the key; `at` fails with `out_of_range` on a missing key.
* Everything the program asks the operating system (window attributes, the
  enumeration of top-level windows, the foreground window, window lookup) is a
  field of `Sys`; everything it asks `Config` is a field of `Config`.
* Calls that act on the operating system are appended to `State.effects`.
-/

namespace TranslucentTB

/-! ## Data -/

/-- Handle of a window (`HWND` wrapped by `Window`). -/
abbrev Window := Nat

/-- Handle of a monitor. -/
abbrev HMONITOR := Nat

/-- The null window, `Window::NullWindow`. -/
def NullWindow : Window := 0

/-- Exit reasons, `enum class EXITREASON` (main.cpp:41-45). -/
inductive EXITREASON where
  | NewInstance
  | UserAction
  | UserActionNoSave
  deriving DecidableEq, Repr

/-- Accent states, the keys of the button maps (main.cpp:60-98). -/
inductive ACCENT where
  | ACCENT_NORMAL
  | ACCENT_ENABLE_TRANSPARENTGRADIENT
  | ACCENT_ENABLE_GRADIENT
  | ACCENT_ENABLE_BLURBEHIND
  | ACCENT_ENABLE_FLUENT
  deriving DecidableEq, Repr

/-- Peek modes, the keys of `PEEK_BUTTON_MAP` (main.cpp:100-104). -/
inductive PEEK where
  | Enabled
  | Dynamic
  | Disabled
  deriving DecidableEq, Repr

/-- A configured appearance, `Config::TASKBAR_APPEARANCE`: accent and colour. -/
structure TASKBAR_APPEARANCE where
  ACCENT : ACCENT
  COLOR : Nat
  deriving DecidableEq, Repr

/-- The target of a `const Config::TASKBAR_APPEARANCE *`: which of the five
configuration objects the pointer stored in `run.taskbars` points at. -/
inductive AppearancePtr where
  | REGULAR_APPEARANCE
  | MAXIMISED_APPEARANCE
  | START_APPEARANCE
  | CORTANA_APPEARANCE
  | TIMELINE_APPEARANCE
  deriving DecidableEq, Repr

/-- The configuration values read by the decision engine (`Config::...`). -/
structure Config where
  REGULAR_APPEARANCE : TASKBAR_APPEARANCE
  MAXIMISED_ENABLED : Bool
  MAXIMISED_APPEARANCE : TASKBAR_APPEARANCE
  MAXIMISED_REGULAR_ON_PEEK : Bool
  START_ENABLED : Bool
  START_APPEARANCE : TASKBAR_APPEARANCE
  CORTANA_ENABLED : Bool
  CORTANA_APPEARANCE : TASKBAR_APPEARANCE
  TIMELINE_ENABLED : Bool
  TIMELINE_APPEARANCE : TASKBAR_APPEARANCE
  PEEK : PEEK
  PEEK_ONLY_MAIN : Bool

/-- Dereference of an appearance pointer, `*taskbar.second.second`. -/
def Config.deref (cfg : Config) : AppearancePtr → TASKBAR_APPEARANCE
  | .REGULAR_APPEARANCE => cfg.REGULAR_APPEARANCE
  | .MAXIMISED_APPEARANCE => cfg.MAXIMISED_APPEARANCE
  | .START_APPEARANCE => cfg.START_APPEARANCE
  | .CORTANA_APPEARANCE => cfg.CORTANA_APPEARANCE
  | .TIMELINE_APPEARANCE => cfg.TIMELINE_APPEARANCE

/-- The accent policy record, `swca::ACCENTPOLICY`, as filled in at main.cpp:116-121. -/
structure ACCENTPOLICY where
  nAccentState : ACCENT
  nFlags : Nat
  nColor : Nat
  nAnimationId : Nat
  deriving DecidableEq, Repr

/-- Calls that act on the operating system or on the configuration file. -/
inductive Effect where
  | send_message (window : Window) (msg : Nat)
  | SetWindowCompositionAttribute (window : Window) (policy : ACCENTPOLICY)
  | SetWindowLong (window : Window) (nIndex : Int) (value : Nat)
  | SetLayeredWindowAttributes (window : Window) (crKey : Nat) (bAlpha : Nat) (dwFlags : Nat)
  | ConfigSave
  deriving DecidableEq, Repr

/-- The answers of the operating system and of the external collaborators
during one tick. -/
structure Sys where
  /-- Whether `user32::SetWindowCompositionAttribute` was resolved (non-null). -/
  SetWindowCompositionAttribute : Bool
  /-- The call `window.visible()`. -/
  visible : Window → Bool
  /-- The call `window.state()`, a show command. -/
  state : Window → Nat
  /-- The call `window.get_attribute<BOOL>(DWMWA_CLOAKED)`, as a truth value. -/
  cloaked : Window → Bool
  /-- The call `Blacklist::IsBlacklisted(window)`. -/
  IsBlacklisted : Window → Bool
  /-- The call `window.on_current_desktop()`. -/
  on_current_desktop : Window → Bool
  /-- The call `window.monitor()`. -/
  monitor : Window → HMONITOR
  /-- The call `window.classname()`. -/
  classname : Window → String
  /-- The call `window.filename()`. -/
  filename : Window → String
  /-- The windows `EnumWindows` passes to its callback, in order. -/
  EnumWindows : List Window
  /-- The call `Window::ForegroundWindow()`. -/
  ForegroundWindow : Window
  /-- The call `Window::Find(className, windowName, parent, childAfter)`. -/
  Find : String → String → Window → Window → Window
  /-- The value of `win32::IsAtLeastBuild(MIN_FLUENT_BUILD)`. -/
  IsAtLeastFluentBuild : Bool
  /-- The constant `CORE_WINDOW`, a window class name. -/
  CORE_WINDOW : String
  /-- The call `Util::IgnoreCaseStringEquals(a, b)`. -/
  IgnoreCaseStringEquals : String → String → Bool

/-- The failure of `std::unordered_map::at` on a missing key. -/
inductive Error where
  | out_of_range
  deriving DecidableEq, Repr

/-! ## `std::unordered_map` -/

/-- Lookup of a key: the value of the first entry with that key. -/
def umap_find {V : Type} : List (Nat × V) → Nat → Option V
  | [], _ => none
  | (k, v) :: rest, key => if k = key then some v else umap_find rest key

/-- The call `m.count(key)`. -/
def umap_count {V : Type} (m : List (Nat × V)) (key : Nat) : Nat :=
  match umap_find m key with
  | some _ => 1
  | none => 0

/-- The assignment `m[key] = value`: overwrite the entry of the key, or insert one. -/
def umap_assign {V : Type} : List (Nat × V) → Nat → V → List (Nat × V)
  | [], key, value => [(key, value)]
  | (k, v) :: rest, key, value =>
    if k = key then (k, value) :: rest else (k, v) :: umap_assign rest key value

/-- The read `m[key]` of a map of truth values: the value of the key, or the
value-initialised `false`. -/
def umap_index (m : List (Nat × Bool)) (key : Nat) : Bool :=
  match umap_find m key with
  | some v => v
  | none => false

/-- The call `m.at(key)`: the value of the key, or `out_of_range`. -/
def umap_at {V : Type} (m : List (Nat × V)) (key : Nat) : Except Error V :=
  match umap_find m key with
  | some v => .ok v
  | none => .error .out_of_range

/-! ## Program state -/

/-- The global `run` (main.cpp:47-58, without the path strings), the
function-local statics, the extended window styles the program reads back, and
the log of effects. -/
structure State where
  exit_reason : EXITREASON
  main_taskbar : Window
  taskbars : List (HMONITOR × (Window × AppearancePtr))
  should_show_peek : Bool
  is_running : Bool
  peek_active : Bool
  start_opened : Bool
  /-- The static `counter` of `SetTaskbarBlur`. -/
  counter : Nat
  /-- The static `is_normal` of `SetWindowBlur`. -/
  is_normal : List (Window × Bool)
  /-- The static `cached_peek` of `TogglePeek`. -/
  cached_peek : Bool
  /-- The static `cached_taskbar` of `TogglePeek`; `none` before the first call,
  when the static is not yet initialised. -/
  cached_taskbar : Option Window
  /-- The value `GetWindowLong(window, GWL_EXSTYLE)` returns. -/
  exstyle : Window → Nat
  effects : List Effect

/-- The state at program start: the initialisers of `run` and of the statics. -/
def State.initial : State where
  exit_reason := .UserAction
  main_taskbar := NullWindow
  taskbars := []
  should_show_peek := true
  is_running := true
  peek_active := false
  start_opened := false
  counter := 10
  is_normal := []
  cached_peek := true
  cached_taskbar := none
  exstyle := fun _ => 0
  effects := []

/-! ## Constants of the platform headers -/

def WM_THEMECHANGED : Nat := 0x031A

def SW_MAXIMIZE : Nat := 3

def GWL_EXSTYLE : Int := -20

def WS_EX_LAYERED : Nat := 0x00080000

def LWA_ALPHA : Nat := 0x00000002

/-! ## `SetWindowBlur` (main.cpp:110-149) -/

/-- The colour placed in the policy (main.cpp:119):
`(color & 0xFF00FF00) + ((color & 0x00FF0000) >> 16) + ((color & 0x000000FF) << 16)`
in `uint32_t` arithmetic. -/
def policyColor (color : Nat) : Nat :=
  ((color &&& 0xFF00FF00) + ((color &&& 0x00FF0000) >>> 16)
    + (((color &&& 0x000000FF) <<< 16) % 2 ^ 32)) % 2 ^ 32

/-- The three summands of `policyColor` added without reduction. -/
def policyColorSum (color : Nat) : Nat :=
  (color &&& 0xFF00FF00) + ((color &&& 0x00FF0000) >>> 16) + ((color &&& 0x000000FF) <<< 16)

/-- The colour after the fluent branch (main.cpp:134-138):
`(0x01 << 24) + (policy.nColor & 0x00FFFFFF)` when the accent is fluent and
`policy.nColor >> 24 == 0x00`. -/
def fluentFloor (appearance : ACCENT) (nColor : Nat) : Nat :=
  if appearance = .ACCENT_ENABLE_FLUENT ∧ nColor >>> 24 = 0x00 then
    ((0x01 <<< 24) + (nColor &&& 0x00FFFFFF)) % 2 ^ 32
  else nColor

/-- The function `SetWindowBlur(window, appearance, color)`. -/
def SetWindowBlur (sys : Sys) (window : Window) (appearance : ACCENT) (color : Nat)
    (s : State) : State :=
  if sys.SetWindowCompositionAttribute then
    let policy : ACCENTPOLICY :=
      { nAccentState := appearance, nFlags := 2, nColor := policyColor color, nAnimationId := 0 }
    if policy.nAccentState = .ACCENT_NORMAL then
      if umap_count s.is_normal window = 0 ∨ umap_index s.is_normal window = false then
        { s with
          effects := s.effects ++ [Effect.send_message window WM_THEMECHANGED]
          is_normal := umap_assign s.is_normal window true }
      else s
    else
      let policy := { policy with nColor := fluentFloor policy.nAccentState policy.nColor }
      { s with
        effects := s.effects ++ [Effect.SetWindowCompositionAttribute window policy]
        is_normal := umap_assign s.is_normal window false }
  else s

/-! ## `TogglePeek` (main.cpp:272-295) -/

/-- The peek button of a taskbar (main.cpp:279):
`Window::Find(L"TrayShowDesktopButtonWClass", L"", Window::Find(L"TrayNotifyWnd", L"", taskbar))`. -/
def peekButton (sys : Sys) (taskbar : Window) : Window :=
  sys.Find "TrayShowDesktopButtonWClass" ""
    (sys.Find "TrayNotifyWnd" "" taskbar NullWindow) NullWindow

/-- The function `TogglePeek(status)`. The static `cached_taskbar` is initialised
from `run.main_taskbar` on the first call. -/
def TogglePeek (sys : Sys) (status : Bool) (s : State) : State :=
  let cached_taskbar : Window :=
    match s.cached_taskbar with
    | some w => w
    | none => s.main_taskbar
  if status ≠ s.cached_peek ∨ cached_taskbar ≠ s.main_taskbar then
    let _peek : Window := peekButton sys s.main_taskbar
    if status = false then
      let value := s.exstyle _peek ||| WS_EX_LAYERED
      { s with
        exstyle := fun w => if w = _peek then value else s.exstyle w
        effects := s.effects ++ [Effect.SetWindowLong _peek GWL_EXSTYLE value,
          Effect.SetLayeredWindowAttributes _peek 0 0 LWA_ALPHA]
        cached_peek := status
        cached_taskbar := some s.main_taskbar }
    else
      let value := s.exstyle _peek &&& (0xFFFFFFFF - WS_EX_LAYERED)
      { s with
        exstyle := fun w => if w = _peek then value else s.exstyle w
        effects := s.effects ++ [Effect.SetWindowLong _peek GWL_EXSTYLE value]
        cached_peek := status
        cached_taskbar := some s.main_taskbar }
  else { s with cached_taskbar := some cached_taskbar }

/-! ## `EnumWindowsProcess` (main.cpp:391-421) -/

/-- The test of main.cpp:397: visible, maximized, not cloaked, not blacklisted,
on the current desktop. -/
def qualifies (sys : Sys) (window : Window) : Bool :=
  sys.visible window && sys.state window == SW_MAXIMIZE && !sys.cloaked window
    && !sys.IsBlacklisted window && sys.on_current_desktop window

/-- The callback `EnumWindowsProcess(hWnd, _)`; it always returns `true`, so only
the state after it, or the failure of `run.taskbars.at`, is kept. -/
def EnumWindowsProcess (cfg : Config) (sys : Sys) (hWnd : Window) (s : State) :
    Except Error State :=
  if qualifies sys hWnd then
    match umap_at s.taskbars (sys.monitor hWnd) with
    | .error e => .error e
    | .ok taskbar =>
      let s1 : State :=
        if cfg.MAXIMISED_ENABLED then
          { s with taskbars :=
              umap_assign s.taskbars (sys.monitor hWnd) (taskbar.1, .MAXIMISED_APPEARANCE) }
        else s
      let s2 : State :=
        if cfg.PEEK = .Dynamic then
          if cfg.PEEK_ONLY_MAIN then
            if taskbar.1 = s1.main_taskbar then { s1 with should_show_peek := true } else s1
          else { s1 with should_show_peek := true }
        else s1
      .ok s2
  else .ok s

/-- The call `EnumWindows(&EnumWindowsProcess, NULL)` over the given top-level
windows: the callback runs on each in turn. -/
def EnumWindows (cfg : Config) (sys : Sys) : List Window → State → Except Error State
  | [], s => .ok s
  | hWnd :: rest, s =>
    match EnumWindowsProcess cfg sys hWnd s with
    | .error e => .error e
    | .ok s1 => EnumWindows cfg sys rest s1

/-! ## `SetTaskbarBlur` (main.cpp:423-496) -/

/-- The loop `for (auto &taskbar : run.taskbars) taskbar.second.second = p`. -/
def setAll (p : AppearancePtr) (taskbars : List (HMONITOR × (Window × AppearancePtr))) :
    List (HMONITOR × (Window × AppearancePtr)) :=
  taskbars.map (fun taskbar => (taskbar.1, (taskbar.2.1, p)))

/-- The statement `run.taskbars.at(monitor).second = p`. -/
def atSetSecond (taskbars : List (HMONITOR × (Window × AppearancePtr))) (monitor : HMONITOR)
    (p : AppearancePtr) : Except Error (List (HMONITOR × (Window × AppearancePtr))) :=
  match umap_at taskbars monitor with
  | .error e => .error e
  | .ok taskbar => .ok (umap_assign taskbars monitor (taskbar.1, p))

/-- The condition of main.cpp:448-449 on the foreground window. -/
def cortanaFires (cfg : Config) (sys : Sys) : Bool :=
  cfg.CORTANA_ENABLED && !sys.cloaked sys.ForegroundWindow
    && sys.IgnoreCaseStringEquals (sys.filename sys.ForegroundWindow) "SearchUI.exe"

/-- The condition of main.cpp:454. -/
def startFires (cfg : Config) (s : State) : Bool :=
  cfg.START_ENABLED && s.start_opened

/-- Lines 444-458: the overrides of the foreground window. -/
def foregroundOverrides (cfg : Config) (sys : Sys) (s : State) : Except Error State :=
  let fg_window := sys.ForegroundWindow
  if fg_window ≠ NullWindow then
    let r1 :=
      if cortanaFires cfg sys then
        atSetSecond s.taskbars (sys.monitor fg_window) .CORTANA_APPEARANCE
      else .ok s.taskbars
    match r1 with
    | .error e => .error e
    | .ok t1 =>
      let r2 :=
        if startFires cfg s then
          atSetSecond t1 (sys.monitor fg_window) .START_APPEARANCE
        else .ok t1
      match r2 with
      | .error e => .error e
      | .ok t2 => .ok { s with taskbars := t2 }
  else .ok s

/-- The condition of main.cpp:462. -/
def peekRevertFires (cfg : Config) (s : State) : Bool :=
  cfg.MAXIMISED_ENABLED && cfg.MAXIMISED_REGULAR_ON_PEEK && s.peek_active

/-- Lines 460-468: back to regular while peeking. -/
def peekRevert (cfg : Config) (s : State) : State :=
  if peekRevertFires cfg s then
    { s with taskbars := setAll .REGULAR_APPEARANCE s.taskbars }
  else s

/-- The test of main.cpp:473-475 for the task view and timeline surface:
`CORE_WINDOW` hosted by Explorer from the fluent build on, the legacy class
before. -/
def isTimelineSurface (sys : Sys) (window : Window) : Bool :=
  if sys.IsAtLeastFluentBuild then
    (sys.classname window == sys.CORE_WINDOW
      && sys.IgnoreCaseStringEquals (sys.filename window) "Explorer.exe")
  else sys.classname window == "MultitaskingViewFrame"

/-- The condition of main.cpp:470-475 on the foreground window. -/
def timelineFires (cfg : Config) (sys : Sys) : Bool :=
  let fg_window := sys.ForegroundWindow
  fg_window != NullWindow && (cfg.TIMELINE_ENABLED && isTimelineSurface sys fg_window)

/-- Lines 470-482: the task view and timeline override. -/
def timelineOverride (cfg : Config) (sys : Sys) (s : State) : State :=
  if timelineFires cfg sys then
    { s with taskbars := setAll .TIMELINE_APPEARANCE s.taskbars }
  else s

/-- Lines 431-484: the body run when `counter >= 10`. -/
def decisionPass (cfg : Config) (sys : Sys) (s : State) : Except Error State :=
  let s0 : State := { s with should_show_peek := decide (cfg.PEEK = .Enabled) }
  let s1 : State := { s0 with taskbars := setAll .REGULAR_APPEARANCE s0.taskbars }
  let r2 : Except Error State :=
    if cfg.MAXIMISED_ENABLED || decide (cfg.PEEK = .Dynamic) then
      EnumWindows cfg sys sys.EnumWindows s1
    else .ok s1
  match r2 with
  | .error e => .error e
  | .ok s2 =>
    let s3 := TogglePeek sys s2.should_show_peek s2
    match foregroundOverrides cfg sys s3 with
    | .error e => .error e
    | .ok s4 =>
      let s5 := peekRevert cfg s4
      let s6 := timelineOverride cfg sys s5
      .ok { s6 with counter := 0 }

/-- Lines 491-495: `SetWindowBlur` on every taskbar with its selected appearance. -/
def applyAll (cfg : Config) (sys : Sys) (s : State) : State :=
  s.taskbars.foldl
    (fun st taskbar =>
      SetWindowBlur sys taskbar.2.1 (cfg.deref taskbar.2.2).ACCENT (cfg.deref taskbar.2.2).COLOR st)
    s

/-- The function `SetTaskbarBlur()`. -/
def SetTaskbarBlur (cfg : Config) (sys : Sys) (s : State) : Except Error State :=
  let r : Except Error State :=
    if s.counter ≥ 10 then decisionPass cfg sys s
    else .ok { s with counter := (s.counter + 1) % 2 ^ 8 }
  match r with
  | .error e => .error e
  | .ok s1 => .ok (applyAll cfg sys s1)

/-! ## The restore block of `wWinMain` (main.cpp:719-733) -/

/-- Whether a monitor has a binding in `run.taskbars`. -/
def registered (s : State) (monitor : HMONITOR) : Bool :=
  (umap_find s.taskbars monitor).isSome

/-- The monitors and taskbar windows of a registry, without the selections. -/
def frame (taskbars : List (HMONITOR × (Window × AppearancePtr))) : List (HMONITOR × Window) :=
  taskbars.map (fun taskbar => (taskbar.1, taskbar.2.1))

/-- The selection of a monitor: the appearance pointer of its binding. -/
def selection (s : State) (monitor : HMONITOR) : Option AppearancePtr :=
  (umap_find s.taskbars monitor).map (fun taskbar => taskbar.2)

/-- Every `run.taskbars.at(...)` the decision pass evaluates finds its key: when
the enumeration runs, each qualifying window lies on a registered monitor, and
when an override of the foreground window fires, the foreground window lies on
a registered monitor. -/
def lookupsSucceed (cfg : Config) (sys : Sys) (s : State) : Prop :=
  ((cfg.MAXIMISED_ENABLED || decide (cfg.PEEK = .Dynamic)) = true →
      ∀ w ∈ sys.EnumWindows, qualifies sys w = true → registered s (sys.monitor w) = true)
  ∧ (sys.ForegroundWindow ≠ NullWindow →
      (cortanaFires cfg sys || startFires cfg s) = true →
      registered s (sys.monitor sys.ForegroundWindow) = true)

instance (cfg : Config) (sys : Sys) (s : State) : Decidable (lookupsSucceed cfg sys s) := by
  unfold lookupsSucceed
  infer_instance

/-- Whether some enumerated window qualifies and lies on the monitor. -/
def hasQualifyingWindow (sys : Sys) (monitor : HMONITOR) : Bool :=
  sys.EnumWindows.any (fun w => qualifies sys w && decide (sys.monitor w = monitor))

/-- Whether the foreground window exists and lies on the monitor. -/
def isForegroundMonitor (sys : Sys) (monitor : HMONITOR) : Bool :=
  decide (sys.ForegroundWindow ≠ NullWindow) && decide (sys.monitor sys.ForegroundWindow = monitor)

/-- The precedence of the selection rules, last rule first: timeline, back to
regular while peeking, start, search assistant, maximised, regular. -/
def selectedAppearance (cfg : Config) (sys : Sys) (s : State) (monitor : HMONITOR) :
    AppearancePtr :=
  if timelineFires cfg sys then .TIMELINE_APPEARANCE
  else if peekRevertFires cfg s then .REGULAR_APPEARANCE
  else if isForegroundMonitor sys monitor && startFires cfg s then .START_APPEARANCE
  else if isForegroundMonitor sys monitor && cortanaFires cfg sys then .CORTANA_APPEARANCE
  else if cfg.MAXIMISED_ENABLED && hasQualifyingWindow sys monitor then .MAXIMISED_APPEARANCE
  else .REGULAR_APPEARANCE

/-- The peek flag of the pass: set by the always-enabled mode, or in the dynamic
mode by a qualifying window that counts (any, or one on the monitor of the main
taskbar when only the main monitor counts). -/
def selectedPeek (cfg : Config) (sys : Sys) (s : State) : Bool :=
  decide (cfg.PEEK = .Enabled) ||
    (decide (cfg.PEEK = .Dynamic) && sys.EnumWindows.any (fun w => qualifies sys w &&
      (!cfg.PEEK_ONLY_MAIN ||
        decide (umap_find (frame s.taskbars) (sys.monitor w) = some s.main_taskbar))))

/-! ## A concrete desktop

Two monitors `1` and `2`; the main taskbar is window `10` on monitor `1`, the
secondary taskbar is window `20` on monitor `2`. Window `30` is a visible,
maximized, uncloaked window on the current desktop; window `40` is an ordinary
window. -/

/-- The desktop: window `30` lies on `maxMonitor`; the foreground window is `fg`,
and window `40` lies on `fgMonitor`, is cloaked when `fgCloaked`, and has class
`fgClass`. -/
def exampleSys (maxMonitor : HMONITOR) (fg : Window) (fgMonitor : HMONITOR) (fgCloaked : Bool)
    (fgClass : String) : Sys where
  SetWindowCompositionAttribute := true
  visible := fun _ => true
  state := fun w => if w = 30 then SW_MAXIMIZE else 1
  cloaked := fun w => decide (w = 40) && fgCloaked
  IsBlacklisted := fun _ => false
  on_current_desktop := fun _ => true
  monitor := fun w => if w = 30 then maxMonitor else fgMonitor
  classname := fun w => if w = 40 then fgClass else ""
  filename := fun _ => "app.exe"
  EnumWindows := [30, 40]
  ForegroundWindow := fg
  Find := fun _ _ parent _ => parent + 1
  IsAtLeastFluentBuild := false
  CORE_WINDOW := "Windows.UI.Core.CoreWindow"
  IgnoreCaseStringEquals := fun a b => a == b

/-- A configuration with the given switches; the five appearances are distinct. -/
def exampleConfig (maximised regularOnPeek start cortana timeline : Bool) (peek : PEEK)
    (onlyMain : Bool) : Config where
  REGULAR_APPEARANCE := { ACCENT := .ACCENT_ENABLE_TRANSPARENTGRADIENT, COLOR := 0 }
  MAXIMISED_ENABLED := maximised
  MAXIMISED_APPEARANCE := { ACCENT := .ACCENT_ENABLE_BLURBEHIND, COLOR := 0xAA000000 }
  MAXIMISED_REGULAR_ON_PEEK := regularOnPeek
  START_ENABLED := start
  START_APPEARANCE := { ACCENT := .ACCENT_NORMAL, COLOR := 0 }
  CORTANA_ENABLED := cortana
  CORTANA_APPEARANCE := { ACCENT := .ACCENT_NORMAL, COLOR := 0 }
  TIMELINE_ENABLED := timeline
  TIMELINE_APPEARANCE := { ACCENT := .ACCENT_ENABLE_FLUENT, COLOR := 0x00112233 }
  PEEK := peek
  PEEK_ONLY_MAIN := onlyMain

/-- The two-monitor state at the threshold of the counter, with the given
signals and every taskbar holding `selected`. -/
def exampleState (peek_active start_opened : Bool) (selected : AppearancePtr) : State :=
  { State.initial with
    main_taskbar := 10
    taskbars := [(1, (10, selected)), (2, (20, selected))]
    peek_active := peek_active
    start_opened := start_opened }

/-- The selection of a monitor after a tick, when the tick completed. -/
def selectionAfter (r : Except Error State) (monitor : HMONITOR) : Option AppearancePtr :=
  match r with
  | .ok s => selection s monitor
  | .error _ => none

/-! ## `RefreshHandles` (main.cpp:252-270)

The verbose log line (main.cpp:254-257) only writes to the log and is left out.
The `while` loop runs as long as the finder returns windows, so it is given
fuel: `none` is the loop still running when the fuel is spent. -/

/-- The loop of main.cpp:265-269: `secondtaskbar` is the window found last
(`Window secondtaskbar;` starts as the null window), and every window found is
bound to its monitor with the regular appearance. -/
def secondaryTaskbarsLoop (sys : Sys) :
    Nat → Window → List (HMONITOR × (Window × AppearancePtr)) →
      Option (List (HMONITOR × (Window × AppearancePtr)))
  | 0, _, _ => none
  | fuel + 1, secondtaskbar, taskbars =>
    let found := sys.Find "Shell_SecondaryTrayWnd" "" NullWindow secondtaskbar
    if found ≠ NullWindow then
      secondaryTaskbarsLoop sys fuel found
        (umap_assign taskbars (sys.monitor found) (found, .REGULAR_APPEARANCE))
    else some taskbars

/-- The function `RefreshHandles()`: clear the map, look up and bind the primary
taskbar, then bind the secondary taskbars. -/
def RefreshHandles (sys : Sys) (fuel : Nat) (s : State) : Option State :=
  let cleared : List (HMONITOR × (Window × AppearancePtr)) := []
  let main_taskbar := sys.Find "Shell_TrayWnd" "" NullWindow NullWindow
  let taskbars :=
    umap_assign cleared (sys.monitor main_taskbar) (main_taskbar, .REGULAR_APPEARANCE)
  match secondaryTaskbarsLoop sys fuel NullWindow taskbars with
  | none => none
  | some taskbars2 => some { s with main_taskbar := main_taskbar, taskbars := taskbars2 }

/-- The finder, asked for secondary taskbars after `previous`, returns the
windows of the list one after the other and then the null window. -/
def discovers (sys : Sys) : Window → List Window → Bool
  | previous, [] => sys.Find "Shell_SecondaryTrayWnd" "" NullWindow previous == NullWindow
  | previous, w :: rest =>
    sys.Find "Shell_SecondaryTrayWnd" "" NullWindow previous == w && w != NullWindow
      && discovers sys w rest

/-- The registry built by binding the given windows, in order, to their
monitors with the regular appearance. -/
def bindAll (sys : Sys) (windows : List Window)
    (taskbars : List (HMONITOR × (Window × AppearancePtr))) :
    List (HMONITOR × (Window × AppearancePtr)) :=
  windows.foldl
    (fun t w => umap_assign t (sys.monitor w) (w, AppearancePtr.REGULAR_APPEARANCE)) taskbars

/-- The taskbars of a rebuilt registry, when the rebuild returned. -/
def taskbarsAfter (r : Option State) : Option (List (HMONITOR × (Window × AppearancePtr))) :=
  r.map (fun s => s.taskbars)

/-! ## Ticks of the message loop (main.cpp:702-712) -/

/-- The value of the static `cached_taskbar` as the next call of `TogglePeek`
sees it: initialised from `run.main_taskbar` if there was no call yet. -/
def memoTaskbar (s : State) : Window :=
  match s.cached_taskbar with
  | some w => w
  | none => s.main_taskbar

/-- The number of window-style changes (`SetWindowLong` calls) in a log. -/
def styleChanges (effects : List Effect) : Nat :=
  effects.countP (fun e =>
    match e with
    | .SetWindowLong _ _ _ => true
    | _ => false)

/-- The test of main.cpp:427: whether the next call of `SetTaskbarBlur` runs the
decision pass. -/
def runsDecisionPass (s : State) : Bool :=
  decide (s.counter ≥ 10)

/-- `n` consecutive calls of `SetTaskbarBlur()`, the ticks of the message loop
while no message changes the state in between. -/
def ticks (cfg : Config) (sys : Sys) : Nat → State → Except Error State
  | 0, s => .ok s
  | n + 1, s =>
    match SetTaskbarBlur cfg sys s with
    | .error e => .error e
    | .ok s1 => ticks cfg sys n s1

/-- Whether tick `k` (counting from 1) runs the decision pass, when the ticks
before it completed. -/
def passRunsAtTick (cfg : Config) (sys : Sys) (s : State) (k : Nat) : Option Bool :=
  match ticks cfg sys (k - 1) s with
  | .ok sk => some (runsDecisionPass sk)
  | .error _ => none

/-- The counter after some ticks, when they completed. -/
def counterAfter (r : Except Error State) : Option Nat :=
  match r with
  | .ok s => some s.counter
  | .error _ => none

/-- Whether a tick was aborted by a failed lookup. -/
def aborted (r : Except Error State) : Bool :=
  match r with
  | .ok _ => false
  | .error _ => true

/-! ## A concrete finder -/

/-- The desktop of `exampleSys 1 40 2 false ""` whose finder returns `primary`
for the primary taskbar and the secondary taskbars `20` and then `21`, or none
when `secondaries` is off; window `10` lies on monitor `1`, window `20` on
monitor `2`, every other window (the null window too) on monitor `3`. -/
def exampleFinder (primary : Window) (secondaries : Bool) : Sys :=
  { exampleSys 1 40 2 false "" with
    monitor := fun w => if w = 10 then 1 else if w = 20 then 2 else 3
    Find := fun className _ _ childAfter =>
      if className = "Shell_TrayWnd" then primary
      else if className = "Shell_SecondaryTrayWnd" ∧ secondaries = true then
        (if childAfter = 0 then 20 else if childAfter = 20 then 21 else 0)
      else 0 }

/-! ## What the shell shows, and the states the program reaches -/

theorem umap_find_assign {V : Type} (m : List (Nat × V)) (key key2 : Nat) (value : V) :
    umap_find (umap_assign m key value) key2
      = if key = key2 then some value else umap_find m key2 := by
  induction m with
  | nil => simp [umap_assign, umap_find]
  | cons hd tl ih =>
    obtain ⟨k, v⟩ := hd
    by_cases hk : k = key
    · subst hk
      by_cases h2 : k = key2 <;> simp [umap_assign, umap_find, h2]
    · by_cases h2 : k = key2
      · subst h2
        simp [umap_assign, umap_find, hk, Ne.symm hk]
      · simp [umap_assign, umap_find, hk, h2, ih]

theorem umap_find_assign_self {V : Type} (m : List (Nat × V)) (key : Nat) (value : V) :
    umap_find (umap_assign m key value) key = some value := by
  simp [umap_find_assign]

/-! ## Bytes of bitwise conjunctions -/

theorem and_split (a b k : Nat) :
    a &&& b = (a % 2 ^ k &&& b % 2 ^ k) + 2 ^ k * ((a / 2 ^ k) &&& (b / 2 ^ k)) := by
  have h1 : (a &&& b) % 2 ^ k = a % 2 ^ k &&& b % 2 ^ k := by
    apply Nat.eq_of_testBit_eq
    intro i
    simp only [Nat.testBit_mod_two_pow, Nat.testBit_and]
    cases decide (i < k) <;> simp
  have h2 : (a &&& b) / 2 ^ k = (a / 2 ^ k) &&& (b / 2 ^ k) := by
    rw [← Nat.shiftRight_eq_div_pow, ← Nat.shiftRight_eq_div_pow, ← Nat.shiftRight_eq_div_pow]
    apply Nat.eq_of_testBit_eq
    intro i
    simp only [Nat.testBit_shiftRight, Nat.testBit_and]
  rw [← h1, ← h2]
  exact (Nat.mod_add_div _ _).symm

theorem and_255 (x : Nat) : x &&& 255 = x % 2 ^ 8 :=
  Nat.and_pow_two_sub_one_eq_mod x 8

theorem and_FF00FF00 (c : Nat) :
    c &&& 0xFF00FF00 = (c / 2 ^ 8 % 2 ^ 8) * 2 ^ 8 + (c / 2 ^ 24 % 2 ^ 8) * 2 ^ 24 := by
  have e1 := and_split c 0xFF00FF00 8
  have e2 := and_split (c / 2 ^ 8) 0xFF00FF 8
  have e3 := and_split (c / 2 ^ 8 / 2 ^ 8) 0xFF00 8
  norm_num at e1 e2 e3
  have := and_255 (c / 256 % 256)
  have := and_255 (c / 256 / 256 / 256)
  omega

theorem and_00FF0000_shr (c : Nat) : (c &&& 0x00FF0000) >>> 16 = c / 2 ^ 16 % 2 ^ 8 := by
  have e1 := and_split c 0x00FF0000 16
  rw [Nat.shiftRight_eq_div_pow]
  norm_num at e1
  have := and_255 (c / 65536)
  omega

theorem and_000000FF_shl (c : Nat) : (c &&& 0x000000FF) <<< 16 = (c % 2 ^ 8) * 2 ^ 16 := by
  rw [Nat.shiftLeft_eq, and_255]

theorem and_00FFFFFF (x : Nat) : x &&& 0x00FFFFFF = x % 2 ^ 24 :=
  Nat.and_pow_two_sub_one_eq_mod x 24

/-- A number below `2 ^ k` and a multiple of `2 ^ k` share no bit. -/
theorem and_eq_zero_of_split (a b k : Nat) (ha : a % 2 ^ k = 0) (hb : b / 2 ^ k = 0) :
    a &&& b = 0 := by
  rw [and_split a b k, ha, hb]
  simp

theorem policyColorSum_eq (c : Nat) :
    policyColorSum c = (c / 2 ^ 24 % 2 ^ 8) * 2 ^ 24 + (c % 2 ^ 8) * 2 ^ 16
      + (c / 2 ^ 8 % 2 ^ 8) * 2 ^ 8 + c / 2 ^ 16 % 2 ^ 8 := by
  unfold policyColorSum
  rw [and_FF00FF00, and_00FF0000_shr, and_000000FF_shl]
  omega

theorem policyColor_eq (c : Nat) :
    policyColor c = (c / 2 ^ 24 % 2 ^ 8) * 2 ^ 24 + (c % 2 ^ 8) * 2 ^ 16
      + (c / 2 ^ 8 % 2 ^ 8) * 2 ^ 8 + c / 2 ^ 16 % 2 ^ 8 := by
  unfold policyColor
  rw [and_FF00FF00, and_00FF0000_shr, and_000000FF_shl]
  omega

/-- The bytes of a number given by its four bytes. -/
theorem bytes_of_sum (x b0 b1 b2 b3 : Nat) (h0 : b0 < 2 ^ 8) (h1 : b1 < 2 ^ 8)
    (h2 : b2 < 2 ^ 8) (h3 : b3 < 2 ^ 8)
    (hx : x = b3 * 2 ^ 24 + b2 * 2 ^ 16 + b1 * 2 ^ 8 + b0) :
    x % 2 ^ 8 = b0 ∧ x / 2 ^ 8 % 2 ^ 8 = b1 ∧ x / 2 ^ 16 % 2 ^ 8 = b2
      ∧ x / 2 ^ 24 % 2 ^ 8 = b3 ∧ x / 2 ^ 24 = b3 ∧ x < 2 ^ 32
      ∧ x % 2 ^ 24 = b2 * 2 ^ 16 + b1 * 2 ^ 8 + b0 := by
  subst hx
  omega

/-! ## The colour of the policy (C7, C8) -/

/-- C8. For every colour `c`, the colour `SetWindowBlur` places in the policy
before the alpha floor has byte 0 equal to byte 2 of `c`, byte 2 equal to byte 0
of `c`, and bytes 1 and 3 equal to those of `c`. The three summands add without
wrap-around (their sum is below `2 ^ 32` and is the 32-bit result) and without
carry (no two of them share a bit). -/
theorem policyColor_swaps_bytes (c : Nat) :
    policyColor c % 2 ^ 8 = c / 2 ^ 16 % 2 ^ 8
    ∧ policyColor c / 2 ^ 16 % 2 ^ 8 = c % 2 ^ 8
    ∧ policyColor c / 2 ^ 8 % 2 ^ 8 = c / 2 ^ 8 % 2 ^ 8
    ∧ policyColor c / 2 ^ 24 % 2 ^ 8 = c / 2 ^ 24 % 2 ^ 8
    ∧ policyColorSum c < 2 ^ 32
    ∧ policyColor c = policyColorSum c
    ∧ (c &&& 0xFF00FF00) &&& ((c &&& 0x00FF0000) >>> 16) = 0
    ∧ (c &&& 0xFF00FF00) &&& ((c &&& 0x000000FF) <<< 16) = 0
    ∧ ((c &&& 0x000000FF) <<< 16) &&& ((c &&& 0x00FF0000) >>> 16) = 0 := by
  have hp := policyColor_eq c
  have hs := policyColorSum_eq c
  have hb := bytes_of_sum (policyColor c) (c / 2 ^ 16 % 2 ^ 8) (c / 2 ^ 8 % 2 ^ 8) (c % 2 ^ 8)
    (c / 2 ^ 24 % 2 ^ 8) (Nat.mod_lt _ (by norm_num)) (Nat.mod_lt _ (by norm_num))
    (Nat.mod_lt _ (by norm_num)) (Nat.mod_lt _ (by norm_num)) hp
  obtain ⟨hb0, hb1, hb2, hb3, -, hlt, -⟩ := hb
  have hA := and_FF00FF00 c
  have hB := and_00FF0000_shr c
  have hC := and_000000FF_shl c
  refine ⟨hb0, hb2, hb1, hb3, ?_, hp.trans hs.symm, ?_, ?_, ?_⟩
  · rw [hs, ← hp]
    exact hlt
  · rw [hA, hB]
    exact and_eq_zero_of_split _ _ 8 (by omega) (by omega)
  · rw [hA, hC]
    have h1 : ((c / 2 ^ 8 % 2 ^ 8) * 2 ^ 8 + (c / 2 ^ 24 % 2 ^ 8) * 2 ^ 24) / 2 ^ 16 % 2 ^ 8 = 0 := by
      omega
    have h2 : ((c % 2 ^ 8) * 2 ^ 16) % 2 ^ 16 = 0 := by omega
    have h3 : ((c % 2 ^ 8) * 2 ^ 16) / 2 ^ 16 / 2 ^ 8 = 0 := by omega
    have e2 := and_eq_zero_of_split
      (((c / 2 ^ 8 % 2 ^ 8) * 2 ^ 8 + (c / 2 ^ 24 % 2 ^ 8) * 2 ^ 24) / 2 ^ 16)
      (((c % 2 ^ 8) * 2 ^ 16) / 2 ^ 16) 8 h1 h3
    have e1 := and_split ((c / 2 ^ 8 % 2 ^ 8) * 2 ^ 8 + (c / 2 ^ 24 % 2 ^ 8) * 2 ^ 24)
      ((c % 2 ^ 8) * 2 ^ 16) 16
    rw [h2, e2] at e1
    rw [e1]
    simp
  · rw [hC, hB]
    exact and_eq_zero_of_split _ _ 8 (by omega) (by omega)

/-- C7. For every tint `c` whose alpha byte is zero, the only policy
`SetWindowBlur(window, ACCENT_ENABLE_FLUENT, c)` submits (it submits one whenever
the compositor call is available) carries a colour whose alpha byte is exactly 1
and whose red, green and blue channels are those of `c`: red is byte 2 of the
ARGB tint and byte 0 of the submitted colour, green is byte 1 of both, blue is
byte 0 of the tint and byte 2 of the submitted colour. The floor itself leaves
the low three bytes of the translated colour as they are. -/
theorem SetWindowBlur_fluent_alpha_floor (sys : Sys) (window : Window) (c : Nat) (s : State)
    (halpha : c / 2 ^ 24 % 2 ^ 8 = 0) :
    (SetWindowBlur sys window .ACCENT_ENABLE_FLUENT c s).effects
      = s.effects ++
        (if sys.SetWindowCompositionAttribute then
          [Effect.SetWindowCompositionAttribute window
            { nAccentState := .ACCENT_ENABLE_FLUENT, nFlags := 2,
              nColor := fluentFloor .ACCENT_ENABLE_FLUENT (policyColor c), nAnimationId := 0 }]
        else [])
    ∧ fluentFloor .ACCENT_ENABLE_FLUENT (policyColor c) / 2 ^ 24 = 1
    ∧ fluentFloor .ACCENT_ENABLE_FLUENT (policyColor c) % 2 ^ 8 = c / 2 ^ 16 % 2 ^ 8
    ∧ fluentFloor .ACCENT_ENABLE_FLUENT (policyColor c) / 2 ^ 8 % 2 ^ 8 = c / 2 ^ 8 % 2 ^ 8
    ∧ fluentFloor .ACCENT_ENABLE_FLUENT (policyColor c) / 2 ^ 16 % 2 ^ 8 = c % 2 ^ 8
    ∧ fluentFloor .ACCENT_ENABLE_FLUENT (policyColor c) % 2 ^ 24 = policyColor c % 2 ^ 24 := by
  have hp := policyColor_eq c
  rw [halpha] at hp
  have hb := bytes_of_sum (policyColor c) (c / 2 ^ 16 % 2 ^ 8) (c / 2 ^ 8 % 2 ^ 8) (c % 2 ^ 8)
    0 (Nat.mod_lt _ (by norm_num)) (Nat.mod_lt _ (by norm_num))
    (Nat.mod_lt _ (by norm_num)) (by norm_num) hp
  obtain ⟨-, -, -, -, hdiv, -, hlow⟩ := hb
  have hshift : policyColor c >>> 24 = 0 := by
    rw [Nat.shiftRight_eq_div_pow]
    exact hdiv
  have hfloor : fluentFloor .ACCENT_ENABLE_FLUENT (policyColor c)
      = 1 * 2 ^ 24 + (c % 2 ^ 8) * 2 ^ 16 + (c / 2 ^ 8 % 2 ^ 8) * 2 ^ 8 + c / 2 ^ 16 % 2 ^ 8 := by
    unfold fluentFloor
    rw [if_pos ⟨rfl, hshift⟩, and_00FFFFFF, Nat.shiftLeft_eq, hlow]
    omega
  have hf := bytes_of_sum _ (c / 2 ^ 16 % 2 ^ 8) (c / 2 ^ 8 % 2 ^ 8) (c % 2 ^ 8)
    1 (Nat.mod_lt _ (by norm_num)) (Nat.mod_lt _ (by norm_num))
    (Nat.mod_lt _ (by norm_num)) (by norm_num) hfloor
  obtain ⟨f0, f1, f2, -, fdiv, -, flow⟩ := hf
  refine ⟨?_, fdiv, f0, f1, f2, flow.trans hlow.symm⟩
  unfold SetWindowBlur
  cases sys.SetWindowCompositionAttribute <;> simp

/-- The concrete tint `0x00112233` (alpha 0, red `0x11`, green `0x22`, blue `0x33`)
is submitted as `0x01332211`. -/
theorem SetWindowBlur_fluent_alpha_floor_witness :
    (0x00112233 : Nat) / 2 ^ 24 % 2 ^ 8 = 0
    ∧ fluentFloor .ACCENT_ENABLE_FLUENT (policyColor 0x00112233) / 2 ^ 24 = 1 :=
  ⟨by decide,
    (SetWindowBlur_fluent_alpha_floor (exampleSys 1 40 1 false "") 7 0x00112233 State.initial
      (by decide)).2.1⟩

/-! ## The normal accent (C9) -/

theorem umap_count_assign_self {V : Type} (m : List (Nat × V)) (key : Nat) (value : V) :
    umap_count (umap_assign m key value) key = 1 := by
  simp [umap_count, umap_find_assign_self]

theorem umap_index_assign_self (m : List (Nat × Bool)) (key : Nat) (value : Bool) :
    umap_index (umap_assign m key value) key = value := by
  simp [umap_index, umap_find_assign_self]

/-- What one call with the normal accent does: nothing when the compositor call
is unavailable or the window is memoized as normal, else one theme-change
message and the memo set. -/
theorem SetWindowBlur_normal_eq (sys : Sys) (window : Window) (color : Nat) (s : State) :
    SetWindowBlur sys window .ACCENT_NORMAL color s
      = if sys.SetWindowCompositionAttribute = true
          ∧ (umap_count s.is_normal window = 0 ∨ umap_index s.is_normal window = false) then
          { s with
            effects := s.effects ++ [Effect.send_message window WM_THEMECHANGED]
            is_normal := umap_assign s.is_normal window true }
        else s := by
  unfold SetWindowBlur
  by_cases ha : sys.SetWindowCompositionAttribute = true
  · by_cases hn : umap_count s.is_normal window = 0 ∨ umap_index s.is_normal window = false
    · simp [ha, hn]
    · simp only [ha, hn, if_true, if_false, and_false, true_and]
  · simp [ha]

/-- C9. For every window and every prior memo, of two consecutive calls
`SetWindowBlur(w, ACCENT_NORMAL, _)` the second one has no effect at all, and the
first one either has none or sends exactly one `WM_THEMECHANGED` to `w`; so at
most one notification is sent in total and the compositor policy call is never
made. -/
theorem SetWindowBlur_normal_twice (sys : Sys) (w : Window) (color1 color2 : Nat) (s : State) :
    ∃ sent : List Effect,
      (SetWindowBlur sys w .ACCENT_NORMAL color1 s).effects = s.effects ++ sent
      ∧ (SetWindowBlur sys w .ACCENT_NORMAL color2
          (SetWindowBlur sys w .ACCENT_NORMAL color1 s)).effects = s.effects ++ sent
      ∧ (sent = [] ∨ sent = [Effect.send_message w WM_THEMECHANGED]) := by
  by_cases h : sys.SetWindowCompositionAttribute = true
      ∧ (umap_count s.is_normal w = 0 ∨ umap_index s.is_normal w = false)
  · refine ⟨[Effect.send_message w WM_THEMECHANGED], ?_, ?_, Or.inr rfl⟩
    · rw [SetWindowBlur_normal_eq, if_pos h]
    · rw [SetWindowBlur_normal_eq sys w color1 s, if_pos h, SetWindowBlur_normal_eq]
      have hnot : ¬ (sys.SetWindowCompositionAttribute = true
          ∧ (umap_count (umap_assign s.is_normal w true) w = 0
            ∨ umap_index (umap_assign s.is_normal w true) w = false)) := by
        rw [umap_count_assign_self, umap_index_assign_self]
        simp
      rw [if_neg hnot]
  · refine ⟨[], ?_, ?_, Or.inl rfl⟩
    · rw [SetWindowBlur_normal_eq, if_neg h]
      simp
    · rw [SetWindowBlur_normal_eq sys w color1 s, if_neg h, SetWindowBlur_normal_eq, if_neg h]
      simp

/-! ## The registry keeps its monitors and windows -/

theorem umap_find_frame (t : List (HMONITOR × (Window × AppearancePtr))) (m : HMONITOR) :
    umap_find (frame t) m = (umap_find t m).map (fun taskbar => taskbar.1) := by
  induction t with
  | nil => simp [frame, umap_find]
  | cons hd tl ih =>
    obtain ⟨k, v⟩ := hd
    by_cases hk : k = m
    · simp [frame, umap_find, hk]
    · have ih2 : umap_find (List.map (fun taskbar => (taskbar.1, taskbar.2.1)) tl) m
          = (umap_find tl m).map (fun taskbar => taskbar.1) := ih
      simp [frame, umap_find, hk, ih2]

theorem frame_setAll (p : AppearancePtr) (t : List (HMONITOR × (Window × AppearancePtr))) :
    frame (setAll p t) = frame t := by
  simp [frame, setAll, List.map_map, Function.comp_def]

theorem setAll_eq_map_frame (p : AppearancePtr) (t : List (HMONITOR × (Window × AppearancePtr))) :
    setAll p t = (frame t).map (fun e => (e.1, (e.2, p))) := by
  simp [frame, setAll, List.map_map, Function.comp_def]

theorem setAll_congr (p : AppearancePtr) (t t2 : List (HMONITOR × (Window × AppearancePtr)))
    (h : frame t = frame t2) : setAll p t = setAll p t2 := by
  rw [setAll_eq_map_frame, setAll_eq_map_frame, h]

theorem frame_assign (t : List (HMONITOR × (Window × AppearancePtr))) (m : HMONITOR)
    (w : Window) (p q : AppearancePtr) (h : umap_find t m = some (w, q)) :
    frame (umap_assign t m (w, p)) = frame t := by
  induction t with
  | nil => simp [umap_find] at h
  | cons hd tl ih =>
    obtain ⟨k, v⟩ := hd
    by_cases hk : k = m
    · simp [umap_find, hk] at h
      simp [frame, umap_assign, hk, h]
    · simp [umap_find, hk] at h
      have ih2 := ih h
      simp only [frame] at ih2
      simp [frame, umap_assign, hk, ih2]

theorem umap_find_setAll (p : AppearancePtr) (t : List (HMONITOR × (Window × AppearancePtr)))
    (m : HMONITOR) :
    umap_find (setAll p t) m = (umap_find t m).map (fun taskbar => (taskbar.1, p)) := by
  induction t with
  | nil => simp [setAll, umap_find]
  | cons hd tl ih =>
    obtain ⟨k, v⟩ := hd
    by_cases hk : k = m
    · simp [setAll, umap_find, hk]
    · have ih2 : umap_find (List.map (fun taskbar => (taskbar.1, (taskbar.2.1, p))) tl) m
          = (umap_find tl m).map (fun taskbar => (taskbar.1, p)) := ih
      simp [setAll, umap_find, hk, ih2]

/-- The statement `run.taskbars.at(monitor).second = p` on a registered monitor. -/
theorem atSetSecond_ok (t : List (HMONITOR × (Window × AppearancePtr))) (m : HMONITOR)
    (p : AppearancePtr) (h : (umap_find t m).isSome = true) :
    ∃ t2, atSetSecond t m p = .ok t2 ∧ frame t2 = frame t
      ∧ ∀ m2, umap_find t2 m2
          = if m = m2 then (umap_find t m2).map (fun taskbar => (taskbar.1, p))
            else umap_find t m2 := by
  obtain ⟨⟨w, q⟩, hv⟩ := Option.isSome_iff_exists.mp h
  refine ⟨umap_assign t m (w, p), ?_, frame_assign t m w p q hv, ?_⟩
  · simp [atSetSecond, umap_at, hv]
  · intro m2
    rw [umap_find_assign]
    by_cases hm : m = m2
    · subst hm
      simp [hv]
    · simp [hm]

/-- The registration of a monitor depends on the frame only. -/
theorem isSome_of_frame (t t2 : List (HMONITOR × (Window × AppearancePtr))) (m : HMONITOR)
    (h : frame t2 = frame t) : (umap_find t2 m).isSome = (umap_find t m).isSome := by
  have h1 := umap_find_frame t m
  have h2 := umap_find_frame t2 m
  rw [h] at h2
  rw [h1] at h2
  cases ht : umap_find t m <;> cases ht2 : umap_find t2 m <;> simp [ht, ht2] at h2 ⊢

/-! ## `SetWindowBlur` and `TogglePeek` leave the registry alone -/

theorem SetWindowBlur_frame (sys : Sys) (window : Window) (appearance : ACCENT) (color : Nat)
    (s : State) :
    (SetWindowBlur sys window appearance color s).taskbars = s.taskbars
    ∧ (SetWindowBlur sys window appearance color s).should_show_peek = s.should_show_peek
    ∧ (SetWindowBlur sys window appearance color s).counter = s.counter
    ∧ (SetWindowBlur sys window appearance color s).cached_peek = s.cached_peek
    ∧ (SetWindowBlur sys window appearance color s).cached_taskbar = s.cached_taskbar
    ∧ (SetWindowBlur sys window appearance color s).exstyle = s.exstyle := by
  unfold SetWindowBlur
  by_cases h1 : sys.SetWindowCompositionAttribute = true
  · by_cases h2 : appearance = .ACCENT_NORMAL
    · by_cases h3 : umap_count s.is_normal window = 0 ∨ umap_index s.is_normal window = false
      · simp [h1, h2, h3]
      · simp only [h1, h2, h3, if_true, if_false, and_self]
    · simp [h1, h2]
  · simp [h1]

theorem foldl_SetWindowBlur_frame (sys : Sys) (f : HMONITOR × (Window × AppearancePtr) → ACCENT × Nat)
    (l : List (HMONITOR × (Window × AppearancePtr))) (s : State) :
    (l.foldl (fun st taskbar => SetWindowBlur sys taskbar.2.1 (f taskbar).1 (f taskbar).2 st) s).taskbars
      = s.taskbars
    ∧ (l.foldl (fun st taskbar => SetWindowBlur sys taskbar.2.1 (f taskbar).1 (f taskbar).2 st)
        s).should_show_peek = s.should_show_peek
    ∧ (l.foldl (fun st taskbar => SetWindowBlur sys taskbar.2.1 (f taskbar).1 (f taskbar).2 st)
        s).counter = s.counter
    ∧ (l.foldl (fun st taskbar => SetWindowBlur sys taskbar.2.1 (f taskbar).1 (f taskbar).2 st)
        s).cached_peek = s.cached_peek
    ∧ (l.foldl (fun st taskbar => SetWindowBlur sys taskbar.2.1 (f taskbar).1 (f taskbar).2 st)
        s).cached_taskbar = s.cached_taskbar
    ∧ (l.foldl (fun st taskbar => SetWindowBlur sys taskbar.2.1 (f taskbar).1 (f taskbar).2 st)
        s).exstyle = s.exstyle := by
  induction l generalizing s with
  | nil => simp
  | cons hd tl ih =>
    simp only [List.foldl_cons]
    have h := SetWindowBlur_frame sys hd.2.1 (f hd).1 (f hd).2 s
    have h2 := ih (SetWindowBlur sys hd.2.1 (f hd).1 (f hd).2 s)
    exact ⟨h2.1.trans h.1, h2.2.1.trans h.2.1, h2.2.2.1.trans h.2.2.1,
      h2.2.2.2.1.trans h.2.2.2.1, h2.2.2.2.2.1.trans h.2.2.2.2.1,
      h2.2.2.2.2.2.trans h.2.2.2.2.2⟩

theorem applyAll_frame (cfg : Config) (sys : Sys) (s : State) :
    (applyAll cfg sys s).taskbars = s.taskbars
    ∧ (applyAll cfg sys s).should_show_peek = s.should_show_peek
    ∧ (applyAll cfg sys s).counter = s.counter := by
  have h := foldl_SetWindowBlur_frame sys
    (fun taskbar => ((cfg.deref taskbar.2.2).ACCENT, (cfg.deref taskbar.2.2).COLOR)) s.taskbars s
  exact ⟨h.1, h.2.1, h.2.2.1⟩

theorem TogglePeek_frame (sys : Sys) (status : Bool) (s : State) :
    (TogglePeek sys status s).taskbars = s.taskbars
    ∧ (TogglePeek sys status s).should_show_peek = s.should_show_peek
    ∧ (TogglePeek sys status s).main_taskbar = s.main_taskbar
    ∧ (TogglePeek sys status s).peek_active = s.peek_active
    ∧ (TogglePeek sys status s).start_opened = s.start_opened := by
  unfold TogglePeek
  simp only
  split
  · split <;> simp
  · simp

/-! ## The enumeration -/

/-- One call of the callback on a window that, if it qualifies, lies on a
registered monitor. -/
theorem EnumWindowsProcess_spec (cfg : Config) (sys : Sys) (hWnd : Window) (s : State)
    (h : qualifies sys hWnd = true → registered s (sys.monitor hWnd) = true) :
    ∃ s2, EnumWindowsProcess cfg sys hWnd s = .ok s2
      ∧ s2 = { s with taskbars := s2.taskbars, should_show_peek := s2.should_show_peek }
      ∧ frame s2.taskbars = frame s.taskbars
      ∧ (∀ m, selection s2 m =
          if (cfg.MAXIMISED_ENABLED && qualifies sys hWnd && decide (sys.monitor hWnd = m)) = true
          then (selection s m).map (fun _ => AppearancePtr.MAXIMISED_APPEARANCE)
          else selection s m)
      ∧ s2.should_show_peek = (s.should_show_peek ||
          (decide (cfg.PEEK = .Dynamic) && qualifies sys hWnd &&
            (!cfg.PEEK_ONLY_MAIN ||
              decide (umap_find (frame s.taskbars) (sys.monitor hWnd) = some s.main_taskbar)))) := by
  by_cases hq : qualifies sys hWnd = true
  · have hreg := h hq
    unfold registered at hreg
    obtain ⟨⟨w, q⟩, hv⟩ := Option.isSome_iff_exists.mp hreg
    have hfw : umap_find (frame s.taskbars) (sys.monitor hWnd) = some w := by
      rw [umap_find_frame, hv]
      rfl
    have hat : umap_at s.taskbars (sys.monitor hWnd) = .ok (w, q) := by
      simp [umap_at, hv]
    have hfr := frame_assign s.taskbars (sys.monitor hWnd) w .MAXIMISED_APPEARANCE q hv
    have hsel : ∀ m, (umap_find (umap_assign s.taskbars (sys.monitor hWnd)
          (w, AppearancePtr.MAXIMISED_APPEARANCE)) m).map (fun taskbar => taskbar.2)
        = if sys.monitor hWnd = m
          then (selection s m).map (fun _ => AppearancePtr.MAXIMISED_APPEARANCE)
          else selection s m := by
      intro m
      rw [umap_find_assign]
      by_cases hm : sys.monitor hWnd = m
      · subst hm
        simp [selection, hv]
      · simp [selection, hm]
    unfold EnumWindowsProcess
    rw [if_pos hq, hat]
    by_cases hmax : cfg.MAXIMISED_ENABLED = true
    · by_cases hdyn : cfg.PEEK = .Dynamic
      · by_cases honly : cfg.PEEK_ONLY_MAIN = true
        · by_cases hmain : w = s.main_taskbar
          · subst hmain
            refine ⟨_, rfl, ?_, ?_, ?_, ?_⟩
            · simp [hmax, hdyn, honly]
            · simp [hmax, hdyn, honly, hfr]
            · intro m
              have hm := hsel m
              simp only [selection] at hm ⊢
              simp [hmax, hdyn, honly, hq, hm]
            · simp [hmax, hdyn, honly, hq, hfw]
          · refine ⟨_, rfl, ?_, ?_, ?_, ?_⟩
            · simp [hmax, hdyn, honly, hmain]
            · simp [hmax, hdyn, honly, hmain, hfr]
            · intro m
              have hm := hsel m
              simp only [selection] at hm ⊢
              simp [hmax, hdyn, honly, hmain, hq, hm]
            · simp [hmax, hdyn, honly, hmain, hq, hfw]
        · refine ⟨_, rfl, ?_, ?_, ?_, ?_⟩
          · simp [hmax, hdyn, honly]
          · simp [hmax, hdyn, honly, hfr]
          · intro m
            have hm := hsel m
            simp only [selection] at hm ⊢
            simp [hmax, hdyn, honly, hq, hm]
          · simp [hmax, hdyn, honly, hq, hfw]
      · refine ⟨_, rfl, ?_, ?_, ?_, ?_⟩
        · simp [hmax, hdyn]
        · simp [hmax, hdyn, hfr]
        · intro m
          have hm := hsel m
          simp only [selection] at hm ⊢
          simp [hmax, hdyn, hq, hm]
        · simp [hmax, hdyn, hq, hfw]
    · by_cases hdyn : cfg.PEEK = .Dynamic
      · by_cases honly : cfg.PEEK_ONLY_MAIN = true
        · by_cases hmain : w = s.main_taskbar
          · subst hmain
            refine ⟨_, rfl, ?_, ?_, ?_, ?_⟩
            · simp [hmax, hdyn, honly]
            · simp [hmax, hdyn, honly, hfr]
            · intro m
              have hm := hsel m
              simp only [selection] at hm ⊢
              simp [hmax, hdyn, honly, hq, hm]
            · simp [hmax, hdyn, honly, hq, hfw]
          · refine ⟨_, rfl, ?_, ?_, ?_, ?_⟩
            · simp [hmax, hdyn, honly, hmain]
            · simp [hmax, hdyn, honly, hmain, hfr]
            · intro m
              have hm := hsel m
              simp only [selection] at hm ⊢
              simp [hmax, hdyn, honly, hmain, hq, hm]
            · simp [hmax, hdyn, honly, hmain, hq, hfw]
        · refine ⟨_, rfl, ?_, ?_, ?_, ?_⟩
          · simp [hmax, hdyn, honly]
          · simp [hmax, hdyn, honly, hfr]
          · intro m
            have hm := hsel m
            simp only [selection] at hm ⊢
            simp [hmax, hdyn, honly, hq, hm]
          · simp [hmax, hdyn, honly, hq, hfw]
      · refine ⟨_, rfl, ?_, ?_, ?_, ?_⟩
        · simp [hmax, hdyn]
        · simp [hmax, hdyn, hfr]
        · intro m
          have hm := hsel m
          simp only [selection] at hm ⊢
          simp [hmax, hdyn, hq, hm]
        · simp [hmax, hdyn, hq, hfw]
  · refine ⟨s, ?_, rfl, rfl, ?_, ?_⟩
    · simp [EnumWindowsProcess, hq]
    · intro m
      simp [hq]
    · simp [hq]

theorem selection_combine (e a c b : Bool) (o : Option AppearancePtr) :
    (if (e && b) = true then
        Option.map (fun _ => AppearancePtr.MAXIMISED_APPEARANCE)
          (if (e && a && c) = true then
            Option.map (fun _ => AppearancePtr.MAXIMISED_APPEARANCE) o
          else o)
      else
        if (e && a && c) = true then Option.map (fun _ => AppearancePtr.MAXIMISED_APPEARANCE) o
        else o)
      = if (e && (a && c || b)) = true then
          Option.map (fun _ => AppearancePtr.MAXIMISED_APPEARANCE) o
        else o := by
  cases e <;> cases a <;> cases b <;> cases c <;> cases o <;> rfl

theorem peek_combine (p d a c b : Bool) :
    (p || d && a && c || d && b) = (p || d && (a && c || b)) := by
  cases p <;> cases d <;> cases a <;> cases b <;> cases c <;> rfl

theorem State.frame_trans (s s1 s2 : State)
    (h1 : s1 = { s with taskbars := s1.taskbars, should_show_peek := s1.should_show_peek })
    (h2 : s2 = { s1 with taskbars := s2.taskbars, should_show_peek := s2.should_show_peek }) :
    s2 = { s with taskbars := s2.taskbars, should_show_peek := s2.should_show_peek } := by
  cases s
  cases s1
  cases s2
  simp only [State.mk.injEq] at h1 h2 ⊢
  simp_all

/-- The whole enumeration over windows that, when they qualify, lie on
registered monitors: it completes, changes only selections and the peek flag,
selects the maximised appearance exactly on the monitors of qualifying windows
(when enabled), and raises the peek flag exactly as the dynamic mode says. -/
theorem EnumWindows_spec (cfg : Config) (sys : Sys) (ws : List Window) (s : State)
    (h : ∀ w ∈ ws, qualifies sys w = true → registered s (sys.monitor w) = true) :
    ∃ s2, EnumWindows cfg sys ws s = .ok s2
      ∧ s2 = { s with taskbars := s2.taskbars, should_show_peek := s2.should_show_peek }
      ∧ frame s2.taskbars = frame s.taskbars
      ∧ (∀ m, selection s2 m =
          if (cfg.MAXIMISED_ENABLED
              && ws.any (fun w => qualifies sys w && decide (sys.monitor w = m))) = true
          then (selection s m).map (fun _ => AppearancePtr.MAXIMISED_APPEARANCE)
          else selection s m)
      ∧ s2.should_show_peek = (s.should_show_peek ||
          (decide (cfg.PEEK = .Dynamic) && ws.any (fun w => qualifies sys w &&
            (!cfg.PEEK_ONLY_MAIN ||
              decide (umap_find (frame s.taskbars) (sys.monitor w) = some s.main_taskbar))))) := by
  induction ws generalizing s with
  | nil =>
    refine ⟨s, rfl, rfl, rfl, ?_, ?_⟩
    · intro m
      simp
    · simp
  | cons hWnd rest ih =>
    obtain ⟨s1, hok1, heta1, hfr1, hsel1, hpeek1⟩ :=
      EnumWindowsProcess_spec cfg sys hWnd s (h hWnd (List.mem_cons_self _ _))
    have hreg1 : ∀ w ∈ rest, qualifies sys w = true → registered s1 (sys.monitor w) = true := by
      intro w hw hq
      have := h w (List.mem_cons_of_mem _ hw) hq
      unfold registered at this ⊢
      rw [isSome_of_frame s.taskbars s1.taskbars (sys.monitor w) hfr1]
      exact this
    obtain ⟨s2, hok2, heta2, hfr2, hsel2, hpeek2⟩ := ih s1 hreg1
    have hmain1 : s1.main_taskbar = s.main_taskbar := by
      rw [heta1]
    refine ⟨s2, ?_, State.frame_trans s s1 s2 heta1 heta2, hfr2.trans hfr1, ?_, ?_⟩
    · simp [EnumWindows, hok1, hok2]
    · intro m
      rw [hsel2 m, hsel1 m]
      simp only [List.any_cons]
      exact selection_combine _ _ _ _ _
    · rw [hpeek2, hpeek1, hfr1, hmain1]
      simp only [List.any_cons]
      exact peek_combine _ _ _ _ _

/-! ## The overrides of the foreground window -/

theorem foreground_combine (f st co : Bool) (o : Option AppearancePtr) (a b : AppearancePtr) :
    (if (f && st) = true then
        Option.map (fun _ => a) (if (f && co) = true then Option.map (fun _ => b) o else o)
      else if (f && co) = true then Option.map (fun _ => b) o else o)
      = if (f && st) = true then Option.map (fun _ => a) o
        else if (f && co) = true then Option.map (fun _ => b) o else o := by
  cases f <;> cases st <;> cases co <;> cases o <;> rfl

/-- The statement `run.taskbars.at(monitor).second = p`, when it runs only if
`c` holds, on a monitor registered in that case. -/
theorem atSetSecond_if_ok (c : Bool) (t : List (HMONITOR × (Window × AppearancePtr)))
    (m : HMONITOR) (p : AppearancePtr) (h : c = true → (umap_find t m).isSome = true) :
    ∃ t2, (if c = true then atSetSecond t m p else .ok t) = .ok t2 ∧ frame t2 = frame t
      ∧ ∀ m2, (umap_find t2 m2).map (fun taskbar => taskbar.2)
          = if (decide (m = m2) && c) = true
            then ((umap_find t m2).map (fun taskbar => taskbar.2)).map (fun _ => p)
            else (umap_find t m2).map (fun taskbar => taskbar.2) := by
  cases c with
  | false =>
    refine ⟨t, rfl, rfl, ?_⟩
    intro m2
    simp
  | true =>
    obtain ⟨t2, hok, hfr, hfind⟩ := atSetSecond_ok t m p (h rfl)
    refine ⟨t2, ?_, hfr, ?_⟩
    · simp [hok]
    · intro m2
      rw [hfind m2]
      by_cases hm : m = m2
      · simp [hm, Function.comp_def]
      · simp [hm]

/-- The overrides of the foreground window complete when the monitor they look
up is registered; they change selections only, and only on the monitor of the
foreground window: start wins over the search assistant. -/
theorem foregroundOverrides_spec (cfg : Config) (sys : Sys) (s : State)
    (h : sys.ForegroundWindow ≠ NullWindow → (cortanaFires cfg sys || startFires cfg s) = true →
      registered s (sys.monitor sys.ForegroundWindow) = true) :
    ∃ s2, foregroundOverrides cfg sys s = .ok s2
      ∧ s2 = { s with taskbars := s2.taskbars }
      ∧ frame s2.taskbars = frame s.taskbars
      ∧ ∀ m, selection s2 m =
          if (isForegroundMonitor sys m && startFires cfg s) = true
          then (selection s m).map (fun _ => AppearancePtr.START_APPEARANCE)
          else if (isForegroundMonitor sys m && cortanaFires cfg sys) = true
          then (selection s m).map (fun _ => AppearancePtr.CORTANA_APPEARANCE)
          else selection s m := by
  by_cases hfg : sys.ForegroundWindow ≠ NullWindow
  · have hreg := h hfg
    unfold registered at hreg
    obtain ⟨t1, hok1, hfr1, hsel1⟩ := atSetSecond_if_ok (cortanaFires cfg sys) s.taskbars
      (sys.monitor sys.ForegroundWindow) .CORTANA_APPEARANCE
      (fun hc => hreg (by simp [hc]))
    obtain ⟨t2, hok2, hfr2, hsel2⟩ := atSetSecond_if_ok (startFires cfg s) t1
      (sys.monitor sys.ForegroundWindow) .START_APPEARANCE
      (fun hc => by
        rw [isSome_of_frame s.taskbars t1 _ hfr1]
        exact hreg (by simp [hc]))
    refine ⟨{ s with taskbars := t2 }, ?_, rfl, hfr2.trans hfr1, ?_⟩
    · unfold foregroundOverrides
      simp only [hfg, if_true, ne_eq, not_false_eq_true]
      rw [hok1]
      simp only
      rw [hok2]
    · intro m
      simp only [selection]
      rw [hsel2 m, hsel1 m]
      simp only [isForegroundMonitor, hfg, decide_True, Bool.true_and, ne_eq, not_false_eq_true]
      exact foreground_combine _ _ _ _ _ _
  · refine ⟨s, ?_, rfl, rfl, ?_⟩
    · unfold foregroundOverrides
      simp only [hfg, if_false]
    · intro m
      simp [isForegroundMonitor, hfg]

/-! ## The decision pass -/

theorem selection_setAll (p : AppearancePtr) (s : State) (m : HMONITOR) :
    selection { s with taskbars := setAll p s.taskbars } m
      = (selection s m).map (fun _ => p) := by
  simp [selection, umap_find_setAll, Function.comp_def]

/-- The six steps of the pass, composed on one monitor. -/
theorem pass_combine (tl rv fs fc mq : Bool) (o o1 o2 o4 o5 o6 : Option AppearancePtr)
    (e1 : o1 = o.map (fun _ => AppearancePtr.REGULAR_APPEARANCE))
    (e2 : o2 = if mq = true then o1.map (fun _ => AppearancePtr.MAXIMISED_APPEARANCE) else o1)
    (e4 : o4 = if fs = true then o2.map (fun _ => AppearancePtr.START_APPEARANCE)
      else if fc = true then o2.map (fun _ => AppearancePtr.CORTANA_APPEARANCE) else o2)
    (e5 : o5 = if rv = true then o4.map (fun _ => AppearancePtr.REGULAR_APPEARANCE) else o4)
    (e6 : o6 = if tl = true then o5.map (fun _ => AppearancePtr.TIMELINE_APPEARANCE) else o5) :
    o6 = o.map (fun _ =>
      if tl = true then AppearancePtr.TIMELINE_APPEARANCE
      else if rv = true then AppearancePtr.REGULAR_APPEARANCE
      else if fs = true then AppearancePtr.START_APPEARANCE
      else if fc = true then AppearancePtr.CORTANA_APPEARANCE
      else if mq = true then AppearancePtr.MAXIMISED_APPEARANCE
      else AppearancePtr.REGULAR_APPEARANCE) := by
  subst e1 e2 e4 e5 e6
  cases tl <;> cases rv <;> cases fs <;> cases fc <;> cases mq <;> cases o <;> rfl

/-- The enumeration step of the pass (main.cpp:437-440) from the reset state. -/
theorem enumeration_step (cfg : Config) (sys : Sys) (s : State)
    (h : (cfg.MAXIMISED_ENABLED || decide (cfg.PEEK = .Dynamic)) = true →
      ∀ w ∈ sys.EnumWindows, qualifies sys w = true → registered s (sys.monitor w) = true) :
    ∃ s2,
      (if (cfg.MAXIMISED_ENABLED || decide (cfg.PEEK = .Dynamic)) = true then
          EnumWindows cfg sys sys.EnumWindows s
        else .ok s) = .ok s2
      ∧ s2 = { s with taskbars := s2.taskbars, should_show_peek := s2.should_show_peek }
      ∧ frame s2.taskbars = frame s.taskbars
      ∧ (∀ m, selection s2 m =
          if (cfg.MAXIMISED_ENABLED && hasQualifyingWindow sys m) = true
          then (selection s m).map (fun _ => AppearancePtr.MAXIMISED_APPEARANCE)
          else selection s m)
      ∧ s2.should_show_peek = (s.should_show_peek ||
          (decide (cfg.PEEK = .Dynamic) && sys.EnumWindows.any (fun w => qualifies sys w &&
            (!cfg.PEEK_ONLY_MAIN ||
              decide (umap_find (frame s.taskbars) (sys.monitor w) = some s.main_taskbar))))) := by
  by_cases hc : (cfg.MAXIMISED_ENABLED || decide (cfg.PEEK = .Dynamic)) = true
  · rw [if_pos hc]
    exact EnumWindows_spec cfg sys sys.EnumWindows s (h hc)
  · rw [if_neg hc]
    have hmax : cfg.MAXIMISED_ENABLED = false := by
      cases hm : cfg.MAXIMISED_ENABLED
      · rfl
      · simp [hm] at hc
    have hdyn : decide (cfg.PEEK = .Dynamic) = false := by
      cases hd : decide (cfg.PEEK = .Dynamic)
      · rfl
      · simp [hd] at hc
    refine ⟨s, rfl, rfl, rfl, ?_, ?_⟩
    · intro m
      simp [hmax]
    · rw [hdyn]
      simp

/-- The decision pass as a function of its inputs: when every lookup finds its
key the pass completes, keeps the monitors and windows of the registry, resets
the counter, sets the peek flag to `selectedPeek` and the selection of every
registered monitor to `selectedAppearance`. -/
theorem decisionPass_spec (cfg : Config) (sys : Sys) (s : State)
    (h : lookupsSucceed cfg sys s) :
    ∃ s2, decisionPass cfg sys s = .ok s2
      ∧ frame s2.taskbars = frame s.taskbars
      ∧ s2.main_taskbar = s.main_taskbar
      ∧ s2.peek_active = s.peek_active
      ∧ s2.start_opened = s.start_opened
      ∧ s2.counter = 0
      ∧ s2.should_show_peek = selectedPeek cfg sys s
      ∧ (∀ m, selection s2 m = (selection s m).map (fun _ => selectedAppearance cfg sys s m))
      ∧ (timelineFires cfg sys = true →
          s2.taskbars = setAll .TIMELINE_APPEARANCE s.taskbars)
      ∧ (timelineFires cfg sys = false → peekRevertFires cfg s = true →
          s2.taskbars = setAll .REGULAR_APPEARANCE s.taskbars) := by
  obtain ⟨henum, hfgreg⟩ := h
  -- the reset
  let s1 : State :=
    { s with
      should_show_peek := decide (cfg.PEEK = .Enabled)
      taskbars := setAll .REGULAR_APPEARANCE s.taskbars }
  have hfr1 : frame s1.taskbars = frame s.taskbars := frame_setAll _ _
  have hreg1 : ∀ m, registered s1 m = registered s m := fun m =>
    isSome_of_frame s.taskbars s1.taskbars m hfr1
  -- the enumeration
  obtain ⟨s2, hok2, heta2, hfr2, hsel2, hpeek2⟩ := enumeration_step cfg sys s1
    (fun hc w hw hq => by
      rw [hreg1]
      exact henum hc w hw hq)
  have hmain2 : s2.main_taskbar = s.main_taskbar := by rw [heta2]
  have hpa2 : s2.peek_active = s.peek_active := by rw [heta2]
  have hso2 : s2.start_opened = s.start_opened := by rw [heta2]
  -- the peek toggle
  obtain ⟨htb3, hssp3, hmain3, hpa3, hso3⟩ := TogglePeek_frame sys s2.should_show_peek s2
  -- the foreground window
  have hstart3 : startFires cfg (TogglePeek sys s2.should_show_peek s2) = startFires cfg s := by
    simp [startFires, hso3, hso2]
  obtain ⟨s4, hok4, heta4, hfr4, hsel4⟩ := foregroundOverrides_spec cfg sys
    (TogglePeek sys s2.should_show_peek s2)
    (fun hfg hc => by
      rw [hstart3] at hc
      have := hfgreg hfg hc
      unfold registered at this ⊢
      rw [htb3, isSome_of_frame s.taskbars s2.taskbars _ (hfr2.trans hfr1)]
      exact this)
  have hmain4 : s4.main_taskbar = s.main_taskbar := by
    rw [heta4]
    exact hmain3.trans hmain2
  have hpa4 : s4.peek_active = s.peek_active := by
    rw [heta4]
    exact hpa3.trans hpa2
  have hso4 : s4.start_opened = s.start_opened := by
    rw [heta4]
    exact hso3.trans hso2
  have hssp4 : s4.should_show_peek = selectedPeek cfg sys s := by
    rw [heta4]
    show (TogglePeek sys s2.should_show_peek s2).should_show_peek = _
    rw [hssp3, hpeek2, hfr1]
    rfl
  have hfr4s : frame s4.taskbars = frame s.taskbars := by
    rw [hfr4, htb3, hfr2, hfr1]
  have hrev : peekRevertFires cfg s4 = peekRevertFires cfg s := by
    simp [peekRevertFires, hpa4]
  refine ⟨{ timelineOverride cfg sys (peekRevert cfg s4) with counter := 0 }, ?_, ?_, ?_, ?_, ?_,
    rfl, ?_, ?_, ?_, ?_⟩
  · unfold decisionPass
    simp only
    rw [hok2]
    simp only
    rw [hok4]
  · show frame (timelineOverride cfg sys (peekRevert cfg s4)).taskbars = _
    unfold timelineOverride peekRevert
    split <;> split <;> simp [frame_setAll, hfr4s]
  · show (timelineOverride cfg sys (peekRevert cfg s4)).main_taskbar = _
    unfold timelineOverride peekRevert
    split <;> split <;> simp [hmain4]
  · show (timelineOverride cfg sys (peekRevert cfg s4)).peek_active = _
    unfold timelineOverride peekRevert
    split <;> split <;> simp [hpa4]
  · show (timelineOverride cfg sys (peekRevert cfg s4)).start_opened = _
    unfold timelineOverride peekRevert
    split <;> split <;> simp [hso4]
  · show (timelineOverride cfg sys (peekRevert cfg s4)).should_show_peek = _
    unfold timelineOverride peekRevert
    split <;> split <;> simp [hssp4]
  · intro m
    have e1 : selection s1 m = (selection s m).map (fun _ => AppearancePtr.REGULAR_APPEARANCE) := by
      simp [s1, selection, umap_find_setAll, Function.comp_def]
    have e2 := hsel2 m
    have e4 := hsel4 m
    have e3 : selection (TogglePeek sys s2.should_show_peek s2) m = selection s2 m := by
      simp [selection, htb3]
    rw [e3, hstart3] at e4
    have e5 : selection (peekRevert cfg s4) m
        = if peekRevertFires cfg s = true
          then (selection s4 m).map (fun _ => AppearancePtr.REGULAR_APPEARANCE)
          else selection s4 m := by
      unfold peekRevert
      rw [hrev]
      split
      · exact selection_setAll _ _ _
      · rfl
    have e6 : selection { timelineOverride cfg sys (peekRevert cfg s4) with counter := 0 } m
        = if timelineFires cfg sys = true
          then (selection (peekRevert cfg s4) m).map (fun _ => AppearancePtr.TIMELINE_APPEARANCE)
          else selection (peekRevert cfg s4) m := by
      show selection (timelineOverride cfg sys (peekRevert cfg s4)) m = _
      unfold timelineOverride
      split
      · exact selection_setAll _ _ _
      · rfl
    have := pass_combine _ _ _ _ _ _ _ _ _ _ _ e1 e2 e4 e5 e6
    rw [this]
    rfl
  · intro htl
    show (timelineOverride cfg sys (peekRevert cfg s4)).taskbars = _
    unfold timelineOverride
    rw [if_pos htl]
    apply setAll_congr
    unfold peekRevert
    split <;> simp [frame_setAll, hfr4s]
  · intro htl hrv
    show (timelineOverride cfg sys (peekRevert cfg s4)).taskbars = _
    unfold timelineOverride
    rw [htl]
    simp only [Bool.false_eq_true, if_false]
    unfold peekRevert
    rw [hrev, if_pos hrv]
    exact setAll_congr _ _ _ hfr4s

/-- The tick at the threshold of the counter: the decision pass followed by the
application loop, which leaves the registry, the peek flag and the counter as
the pass set them. -/
theorem SetTaskbarBlur_spec (cfg : Config) (sys : Sys) (s : State) (hcounter : 10 ≤ s.counter)
    (h : lookupsSucceed cfg sys s) :
    ∃ s2, SetTaskbarBlur cfg sys s = .ok s2
      ∧ frame s2.taskbars = frame s.taskbars
      ∧ s2.counter = 0
      ∧ s2.should_show_peek = selectedPeek cfg sys s
      ∧ (∀ m, selection s2 m = (selection s m).map (fun _ => selectedAppearance cfg sys s m))
      ∧ (timelineFires cfg sys = true →
          s2.taskbars = setAll .TIMELINE_APPEARANCE s.taskbars)
      ∧ (timelineFires cfg sys = false → peekRevertFires cfg s = true →
          s2.taskbars = setAll .REGULAR_APPEARANCE s.taskbars) := by
  obtain ⟨s1, hok, hfr, -, -, -, hctr, hssp, hsel, htl, hrv⟩ := decisionPass_spec cfg sys s h
  obtain ⟨atb, assp, actr⟩ := applyAll_frame cfg sys s1
  refine ⟨applyAll cfg sys s1, ?_, ?_, actr.trans hctr, assp.trans hssp, ?_, ?_, ?_⟩
  · unfold SetTaskbarBlur
    simp only [ge_iff_le, hcounter, if_true]
    rw [hok]
  · rw [atb, hfr]
  · intro m
    rw [← hsel m]
    simp [selection, atb]
  · intro h1
    rw [atb, htl h1]
  · intro h1 h2
    rw [atb, hrv h1 h2]

theorem selection_of_registered (s : State) (m : HMONITOR) (p : AppearancePtr)
    (h : registered s m = true) : (selection s m).map (fun _ => p) = some p := by
  unfold registered at h
  obtain ⟨v, hv⟩ := Option.isSome_iff_exists.mp h
  simp [selection, hv]

theorem registered_of_hasQualifyingWindow (cfg : Config) (sys : Sys) (s : State) (m : HMONITOR)
    (hrun : (cfg.MAXIMISED_ENABLED || decide (cfg.PEEK = .Dynamic)) = true)
    (hwin : hasQualifyingWindow sys m = true) (hok : lookupsSucceed cfg sys s) :
    registered s m = true := by
  unfold hasQualifyingWindow at hwin
  obtain ⟨w, hw, hq⟩ := List.any_eq_true.mp hwin
  simp only [Bool.and_eq_true, decide_eq_true_eq] at hq
  have := hok.1 hrun w hw hq.1
  rw [hq.2] at this
  exact this

/-! ## When the pass completes

The condition `lookupsSucceed` is exactly the condition under which the pass
completes: a lookup that misses its key ends the pass with `out_of_range`. -/

theorem EnumWindows_error (cfg : Config) (sys : Sys) (ws : List Window) (s : State)
    (h : ∃ w ∈ ws, qualifies sys w = true ∧ registered s (sys.monitor w) = false) :
    EnumWindows cfg sys ws s = .error .out_of_range := by
  induction ws generalizing s with
  | nil =>
    obtain ⟨w, hw, -⟩ := h
    simp at hw
  | cons hd tl ih =>
    by_cases hbad : qualifies sys hd = true ∧ registered s (sys.monitor hd) = false
    · have hnone : umap_find s.taskbars (sys.monitor hd) = none := by
        have := hbad.2
        unfold registered at this
        cases hf : umap_find s.taskbars (sys.monitor hd)
        · rfl
        · simp [hf] at this
      simp [EnumWindows, EnumWindowsProcess, hbad.1, umap_at, hnone]
    · have hgood : qualifies sys hd = true → registered s (sys.monitor hd) = true := by
        intro hq
        cases hr : registered s (sys.monitor hd)
        · exact absurd ⟨hq, hr⟩ hbad
        · rfl
      obtain ⟨s1, hok1, -, hfr1, -, -⟩ := EnumWindowsProcess_spec cfg sys hd s hgood
      obtain ⟨w, hw, hq, hr⟩ := h
      have hwtl : w ∈ tl := by
        rcases List.mem_cons.mp hw with heq | htl
        · subst heq
          exact absurd ⟨hq, hr⟩ hbad
        · exact htl
      have hr1 : registered s1 (sys.monitor w) = false := by
        unfold registered at hr ⊢
        rw [isSome_of_frame s.taskbars s1.taskbars _ hfr1]
        exact hr
      have := ih s1 ⟨w, hwtl, hq, hr1⟩
      simp [EnumWindows, hok1, this]

theorem atSetSecond_error (t : List (HMONITOR × (Window × AppearancePtr))) (m : HMONITOR)
    (p : AppearancePtr) (h : (umap_find t m).isSome = false) :
    atSetSecond t m p = .error .out_of_range := by
  cases hf : umap_find t m
  · simp [atSetSecond, umap_at, hf]
  · simp [hf] at h

theorem foregroundOverrides_error (cfg : Config) (sys : Sys) (s : State)
    (hfg : sys.ForegroundWindow ≠ NullWindow)
    (hfires : (cortanaFires cfg sys || startFires cfg s) = true)
    (hreg : registered s (sys.monitor sys.ForegroundWindow) = false) :
    foregroundOverrides cfg sys s = .error .out_of_range := by
  unfold registered at hreg
  have herr := fun p => atSetSecond_error s.taskbars (sys.monitor sys.ForegroundWindow) p hreg
  unfold foregroundOverrides
  simp only [hfg, ne_eq, not_false_eq_true, if_true]
  cases hco : cortanaFires cfg sys
  · have hst : startFires cfg s = true := by simpa [hco] using hfires
    simp [hst, herr]
  · simp [herr]

/-- The decision pass completes exactly when every lookup finds its key;
otherwise `run.taskbars.at` fails with `out_of_range`. -/
theorem decisionPass_completes_iff (cfg : Config) (sys : Sys) (s : State) :
    (∃ s2, decisionPass cfg sys s = .ok s2) ↔ lookupsSucceed cfg sys s := by
  constructor
  · rintro ⟨s2, hok⟩
    let s1 : State :=
      { s with
        should_show_peek := decide (cfg.PEEK = .Enabled)
        taskbars := setAll .REGULAR_APPEARANCE s.taskbars }
    have hfr1 : frame s1.taskbars = frame s.taskbars := frame_setAll _ _
    have hreg1 : ∀ m, registered s1 m = registered s m := fun m =>
      isSome_of_frame s.taskbars s1.taskbars m hfr1
    have hA : (cfg.MAXIMISED_ENABLED || decide (cfg.PEEK = .Dynamic)) = true →
        ∀ w ∈ sys.EnumWindows, qualifies sys w = true → registered s (sys.monitor w) = true := by
      intro hc w hw hq
      cases hr : registered s (sys.monitor w)
      · exfalso
        have herr := EnumWindows_error cfg sys sys.EnumWindows s1
          ⟨w, hw, hq, by rw [hreg1]; exact hr⟩
        unfold decisionPass at hok
        simp only [hc, if_true] at hok
        rw [herr] at hok
        simp at hok
      · rfl
    refine ⟨hA, ?_⟩
    intro hfg hfires
    cases hr : registered s (sys.monitor sys.ForegroundWindow)
    · exfalso
      obtain ⟨s2b, hok2, heta2, hfr2, -, -⟩ := enumeration_step cfg sys s1
        (fun hc w hw hq => by
          rw [hreg1]
          exact hA hc w hw hq)
      obtain ⟨htb3, -, -, -, hso3⟩ := TogglePeek_frame sys s2b.should_show_peek s2b
      have hso2 : s2b.start_opened = s.start_opened := by rw [heta2]
      have herr := foregroundOverrides_error cfg sys (TogglePeek sys s2b.should_show_peek s2b) hfg
        (by simpa [startFires, hso3, hso2] using hfires)
        (by
          unfold registered at hr ⊢
          rw [htb3, isSome_of_frame s.taskbars s2b.taskbars _ (hfr2.trans hfr1)]
          exact hr)
      unfold decisionPass at hok
      simp only at hok
      rw [hok2] at hok
      simp only at hok
      rw [herr] at hok
      simp at hok
    · rfl
  · intro h
    obtain ⟨s2, hok, -⟩ := decisionPass_spec cfg sys s h
    exact ⟨s2, hok⟩

/-- The tick at the threshold of the counter completes exactly when every lookup
finds its key. -/
theorem SetTaskbarBlur_completes_iff (cfg : Config) (sys : Sys) (s : State)
    (hcounter : 10 ≤ s.counter) :
    (∃ s2, SetTaskbarBlur cfg sys s = .ok s2) ↔ lookupsSucceed cfg sys s := by
  rw [← decisionPass_completes_iff]
  unfold SetTaskbarBlur
  simp only [ge_iff_le, hcounter, if_true]
  constructor
  · rintro ⟨s2, h⟩
    cases hd : decisionPass cfg sys s with
    | error e => simp [hd] at h
    | ok s1 => exact ⟨s1, rfl⟩
  · rintro ⟨s1, h⟩
    exact ⟨applyAll cfg sys s1, by simp [h]⟩

/-! ## The claims on the decision pass (C1 to C6)

Each statement has two halves: the pass completes whenever every lookup finds
its key, and every pass that completes has the property. -/

/-- What a completed tick at the threshold of the counter has done. -/
theorem SetTaskbarBlur_ok_spec (cfg : Config) (sys : Sys) (s s2 : State)
    (hcounter : 10 ≤ s.counter) (hrun : SetTaskbarBlur cfg sys s = .ok s2) :
    lookupsSucceed cfg sys s
      ∧ frame s2.taskbars = frame s.taskbars
      ∧ s2.counter = 0
      ∧ s2.should_show_peek = selectedPeek cfg sys s
      ∧ (∀ m, selection s2 m = (selection s m).map (fun _ => selectedAppearance cfg sys s m))
      ∧ (timelineFires cfg sys = true →
          s2.taskbars = setAll .TIMELINE_APPEARANCE s.taskbars)
      ∧ (timelineFires cfg sys = false → peekRevertFires cfg s = true →
          s2.taskbars = setAll .REGULAR_APPEARANCE s.taskbars) := by
  have hok : lookupsSucceed cfg sys s :=
    (SetTaskbarBlur_completes_iff cfg sys s hcounter).mp ⟨s2, hrun⟩
  obtain ⟨s3, hrun3, hrest⟩ := SetTaskbarBlur_spec cfg sys s hcounter hok
  rw [hrun] at hrun3
  cases hrun3
  exact ⟨hok, hrest⟩

/-- C1 (as amended). With `MAXIMISED_ENABLED` and `START_ENABLED` on and the
start menu open, a monitor that has a qualifying maximized window and is the
monitor of the (non-null) foreground window is never left on
`MAXIMISED_APPEARANCE` by the pass: it ends on `START_APPEARANCE`, unless the
peek revert fires (then `REGULAR_APPEARANCE`) or the timeline override fires
(then `TIMELINE_APPEARANCE`). -/
theorem start_precedes_maximised_on_foreground_monitor (cfg : Config) (sys : Sys) (s : State)
    (m : HMONITOR) (hcounter : 10 ≤ s.counter)
    (hmax : cfg.MAXIMISED_ENABLED = true) (hstart : cfg.START_ENABLED = true)
    (hopen : s.start_opened = true)
    (hwin : hasQualifyingWindow sys m = true)
    (hfg : sys.ForegroundWindow ≠ NullWindow) (hfgm : sys.monitor sys.ForegroundWindow = m) :
    (lookupsSucceed cfg sys s → ∃ s2, SetTaskbarBlur cfg sys s = .ok s2)
    ∧ ∀ s2, SetTaskbarBlur cfg sys s = .ok s2 →
        selection s2 m = some (
          if timelineFires cfg sys = true then AppearancePtr.TIMELINE_APPEARANCE
          else if peekRevertFires cfg s = true then AppearancePtr.REGULAR_APPEARANCE
          else AppearancePtr.START_APPEARANCE)
        ∧ selection s2 m ≠ some AppearancePtr.MAXIMISED_APPEARANCE := by
  refine ⟨(SetTaskbarBlur_completes_iff cfg sys s hcounter).mpr, ?_⟩
  intro s2 hrun
  obtain ⟨hok, -, -, -, hsel, -, -⟩ := SetTaskbarBlur_ok_spec cfg sys s s2 hcounter hrun
  have hreg : registered s m = true :=
    registered_of_hasQualifyingWindow cfg sys s m (by simp [hmax]) hwin hok
  have hfm : isForegroundMonitor sys m = true := by
    simp [isForegroundMonitor, hfg, hfgm]
  have hsf : startFires cfg s = true := by
    simp [startFires, hstart, hopen]
  have hval : selectedAppearance cfg sys s m
      = if timelineFires cfg sys = true then AppearancePtr.TIMELINE_APPEARANCE
        else if peekRevertFires cfg s = true then AppearancePtr.REGULAR_APPEARANCE
        else AppearancePtr.START_APPEARANCE := by
    unfold selectedAppearance
    simp [hfm, hsf]
  have hfinal := hsel m
  rw [selection_of_registered s m _ hreg, hval] at hfinal
  refine ⟨hfinal, ?_⟩
  rw [hfinal]
  cases timelineFires cfg sys <;> cases peekRevertFires cfg s <;> simp

/-- C2. When `TIMELINE_ENABLED` is on and the foreground window is the task
view or timeline surface, the pass leaves every binding of the registry with its
monitor and window and with `TIMELINE_APPEARANCE` selected, whatever the earlier
steps selected. -/
theorem timeline_overrides_every_monitor (cfg : Config) (sys : Sys) (s : State)
    (hcounter : 10 ≤ s.counter)
    (hen : cfg.TIMELINE_ENABLED = true)
    (hfg : sys.ForegroundWindow ≠ NullWindow)
    (hsurface : isTimelineSurface sys sys.ForegroundWindow = true) :
    (lookupsSucceed cfg sys s → ∃ s2, SetTaskbarBlur cfg sys s = .ok s2)
    ∧ ∀ s2, SetTaskbarBlur cfg sys s = .ok s2 →
        s2.taskbars = s.taskbars.map
          (fun taskbar => (taskbar.1, (taskbar.2.1, AppearancePtr.TIMELINE_APPEARANCE)))
        ∧ (∀ taskbar ∈ s2.taskbars, taskbar.2.2 = AppearancePtr.TIMELINE_APPEARANCE)
        ∧ (∀ m, registered s m = true →
            selection s2 m = some AppearancePtr.TIMELINE_APPEARANCE) := by
  refine ⟨(SetTaskbarBlur_completes_iff cfg sys s hcounter).mpr, ?_⟩
  intro s2 hrun
  obtain ⟨-, -, -, -, hsel, htl, -⟩ := SetTaskbarBlur_ok_spec cfg sys s s2 hcounter hrun
  have hfires : timelineFires cfg sys = true := by
    simp [timelineFires, hen, hfg, hsurface]
  have htb := htl hfires
  refine ⟨htb, ?_, ?_⟩
  · intro taskbar hmem
    rw [htb] at hmem
    simp only [setAll, List.mem_map] at hmem
    obtain ⟨a, -, ha⟩ := hmem
    rw [← ha]
  · intro m hreg
    rw [hsel m, selection_of_registered s m _ hreg]
    simp [selectedAppearance, hfires]

/-- C3. When `MAXIMISED_ENABLED` and `MAXIMISED_REGULAR_ON_PEEK` are on, desktop
peek is active and the timeline override does not fire, the pass leaves every
binding of the registry with its monitor and window and with
`REGULAR_APPEARANCE` selected, whatever steps 3 and 4 selected. -/
theorem peek_reverts_every_monitor (cfg : Config) (sys : Sys) (s : State)
    (hcounter : 10 ≤ s.counter)
    (hmax : cfg.MAXIMISED_ENABLED = true) (hrop : cfg.MAXIMISED_REGULAR_ON_PEEK = true)
    (hpeek : s.peek_active = true)
    (hnotl : timelineFires cfg sys = false) :
    (lookupsSucceed cfg sys s → ∃ s2, SetTaskbarBlur cfg sys s = .ok s2)
    ∧ ∀ s2, SetTaskbarBlur cfg sys s = .ok s2 →
        s2.taskbars = s.taskbars.map
          (fun taskbar => (taskbar.1, (taskbar.2.1, AppearancePtr.REGULAR_APPEARANCE)))
        ∧ (∀ taskbar ∈ s2.taskbars, taskbar.2.2 = AppearancePtr.REGULAR_APPEARANCE)
        ∧ (∀ m, registered s m = true →
            selection s2 m = some AppearancePtr.REGULAR_APPEARANCE) := by
  refine ⟨(SetTaskbarBlur_completes_iff cfg sys s hcounter).mpr, ?_⟩
  intro s2 hrun
  obtain ⟨-, -, -, -, hsel, -, hrv⟩ := SetTaskbarBlur_ok_spec cfg sys s s2 hcounter hrun
  have hfires : peekRevertFires cfg s = true := by
    simp [peekRevertFires, hmax, hrop, hpeek]
  have htb := hrv hnotl hfires
  refine ⟨htb, ?_, ?_⟩
  · intro taskbar hmem
    rw [htb] at hmem
    simp only [setAll, List.mem_map] at hmem
    obtain ⟨a, -, ha⟩ := hmem
    rw [← ha]
  · intro m hreg
    rw [hsel m, selection_of_registered s m _ hreg]
    simp [selectedAppearance, hfires, hnotl]

/-- C5. After every decision pass `run.should_show_peek` is true if
`Config::PEEK` is `Enabled` and false if it is `Disabled`, for every set of
enumerated windows and every value of `MAXIMISED_ENABLED` and
`PEEK_ONLY_MAIN`. -/
theorem peek_flag_fixed_outside_dynamic (cfg : Config) (sys : Sys) (s : State)
    (hcounter : 10 ≤ s.counter) :
    (lookupsSucceed cfg sys s → ∃ s2, SetTaskbarBlur cfg sys s = .ok s2)
    ∧ ∀ s2, SetTaskbarBlur cfg sys s = .ok s2 →
        (cfg.PEEK = .Enabled → s2.should_show_peek = true)
        ∧ (cfg.PEEK = .Disabled → s2.should_show_peek = false) := by
  refine ⟨(SetTaskbarBlur_completes_iff cfg sys s hcounter).mpr, ?_⟩
  intro s2 hrun
  obtain ⟨-, -, -, hssp, -, -, -⟩ := SetTaskbarBlur_ok_spec cfg sys s s2 hcounter hrun
  refine ⟨?_, ?_⟩
  · intro hp
    rw [hssp]
    simp [selectedPeek, hp]
  · intro hp
    rw [hssp]
    simp [selectedPeek, hp]

/-- C4 (as amended). When the foreground window is present but cloaked, step 4
does not apply the search-assistant override; it still applies the start
override whenever `START_ENABLED` is on and the start menu is open, cloaked or
not: the step changes the selection of the monitor of the foreground window to
`START_APPEARANCE` in that case, and nothing otherwise. The step completes when
the start override does not fire or that monitor is registered. -/
theorem cloaked_foreground_blocks_search_not_start (cfg : Config) (sys : Sys) (s : State)
    (hfg : sys.ForegroundWindow ≠ NullWindow)
    (hcloaked : sys.cloaked sys.ForegroundWindow = true) :
    ((startFires cfg s = true → registered s (sys.monitor sys.ForegroundWindow) = true) →
        ∃ s2, foregroundOverrides cfg sys s = .ok s2)
    ∧ ∀ s2, foregroundOverrides cfg sys s = .ok s2 →
        s2 = { s with taskbars := s2.taskbars }
        ∧ ∀ m, selection s2 m =
            if sys.monitor sys.ForegroundWindow = m ∧ cfg.START_ENABLED = true
                ∧ s.start_opened = true
            then (selection s m).map (fun _ => AppearancePtr.START_APPEARANCE)
            else selection s m := by
  have hco : cortanaFires cfg sys = false := by
    simp [cortanaFires, hcloaked]
  have hspec := fun hreg : startFires cfg s = true →
      registered s (sys.monitor sys.ForegroundWindow) = true =>
    foregroundOverrides_spec cfg sys s (fun _ hc => hreg (by simpa [hco] using hc))
  refine ⟨fun hreg => ?_, fun s2 hrun => ?_⟩
  · obtain ⟨s2, hrun, -⟩ := hspec hreg
    exact ⟨s2, hrun⟩
  · have hreg : startFires cfg s = true →
        registered s (sys.monitor sys.ForegroundWindow) = true := by
      intro hsf
      cases hr : registered s (sys.monitor sys.ForegroundWindow)
      · have herr := foregroundOverrides_error cfg sys s hfg (by simp [hsf]) hr
        rw [herr] at hrun
        cases hrun
      · rfl
    obtain ⟨s3, hrun3, heta, -, hsel⟩ := hspec hreg
    rw [hrun] at hrun3
    cases hrun3
    refine ⟨heta, ?_⟩
    intro m
    rw [hsel m, hco]
    simp only [isForegroundMonitor, startFires, hfg, ne_eq, not_false_eq_true, decide_True,
      Bool.true_and, Bool.and_false, Bool.false_eq_true, if_false, Bool.and_eq_true,
      decide_eq_true_eq, and_assoc]

theorem any_of_filter_singleton (l : List Window) (q p : Window → Bool) (w : Window)
    (h : l.filter q = [w]) : l.any (fun x => q x && p x) = p w := by
  have hmem : ∀ x, x ∈ l ∧ q x = true ↔ x = w := by
    intro x
    rw [← List.mem_filter, h, List.mem_singleton]
  cases hp : p w
  · rw [List.any_eq_false]
    intro x hx
    cases hq : q x
    · simp
    · have := (hmem x).mp ⟨hx, hq⟩
      subst this
      simp [hp]
  · rw [List.any_eq_true]
    have := (hmem w).mpr rfl
    exact ⟨w, this.1, by simp [this.2, hp]⟩

/-- C6 (as amended). In a pass with `MAXIMISED_ENABLED` on, timeline, start and
search assistant off, `Config::PEEK` dynamic, exactly one qualifying maximized
window, lying on a registered monitor whose taskbar is not the main taskbar, and
the peek revert not firing (`MAXIMISED_REGULAR_ON_PEEK` off or desktop peek not
active), that monitor ends on `MAXIMISED_APPEARANCE`, and `run.should_show_peek`
is false when `PEEK_ONLY_MAIN` is on and true when it is off. -/
theorem dynamic_peek_single_maximised_window (cfg : Config) (sys : Sys) (s : State)
    (w taskbar : Window) (hcounter : 10 ≤ s.counter)
    (hmax : cfg.MAXIMISED_ENABLED = true) (htl : cfg.TIMELINE_ENABLED = false)
    (hst : cfg.START_ENABLED = false) (hco : cfg.CORTANA_ENABLED = false)
    (hdyn : cfg.PEEK = .Dynamic)
    (hone : sys.EnumWindows.filter (qualifies sys) = [w])
    (hreg : umap_find (frame s.taskbars) (sys.monitor w) = some taskbar)
    (hnotmain : taskbar ≠ s.main_taskbar)
    (hrev : peekRevertFires cfg s = false) :
    ∃ s2, SetTaskbarBlur cfg sys s = .ok s2
      ∧ selection s2 (sys.monitor w) = some AppearancePtr.MAXIMISED_APPEARANCE
      ∧ s2.should_show_peek = !cfg.PEEK_ONLY_MAIN := by
  have hwreg : registered s (sys.monitor w) = true := by
    unfold registered
    rw [umap_find_frame] at hreg
    cases hf : umap_find s.taskbars (sys.monitor w)
    · simp [hf] at hreg
    · rfl
  have hmem : ∀ x, x ∈ sys.EnumWindows ∧ qualifies sys x = true ↔ x = w := by
    intro x
    rw [← List.mem_filter, hone, List.mem_singleton]
  have hcf : cortanaFires cfg sys = false := by simp [cortanaFires, hco]
  have hsf : startFires cfg s = false := by simp [startFires, hst]
  have hok : lookupsSucceed cfg sys s := by
    constructor
    · intro _ x hx hq
      have := (hmem x).mp ⟨hx, hq⟩
      subst this
      exact hwreg
    · intro _ hc
      simp [hcf, hsf] at hc
  obtain ⟨s2, hrun, -, -, hssp, hsel, -, -⟩ := SetTaskbarBlur_spec cfg sys s hcounter hok
  have hq : hasQualifyingWindow sys (sys.monitor w) = true := by
    unfold hasQualifyingWindow
    rw [any_of_filter_singleton sys.EnumWindows (qualifies sys)
      (fun x => decide (sys.monitor x = sys.monitor w)) w hone]
    simp
  have htf : timelineFires cfg sys = false := by simp [timelineFires, htl]
  refine ⟨s2, hrun, ?_, ?_⟩
  · rw [hsel, selection_of_registered s _ _ hwreg]
    simp [selectedAppearance, htf, hrev, hsf, hcf, hmax, hq]
  · rw [hssp]
    unfold selectedPeek
    rw [any_of_filter_singleton sys.EnumWindows (qualifies sys)
      (fun x => !cfg.PEEK_ONLY_MAIN
        || decide (umap_find (frame s.taskbars) (sys.monitor x) = some s.main_taskbar)) w hone]
    simp [hdyn, hreg, hnotmain]

/-! ## The restore on exit (C10) -/

theorem layered_cleared (x : Nat) : (x &&& (0xFFFFFFFF - WS_EX_LAYERED)) &&& WS_EX_LAYERED = 0 := by
  rw [Nat.and_assoc]
  have : (0xFFFFFFFF - WS_EX_LAYERED) &&& WS_EX_LAYERED = 0 := by decide
  rw [this, Nat.and_zero]

/-- C1, counterexample. Maximised and start appearance are enabled and the start
menu is open; the maximized window `30` lies on monitor `1`, the foreground
window `40` on monitor `2`. The pass leaves monitor `1` on
`MAXIMISED_APPEARANCE`: start is selected on the monitor of the foreground
window only. -/
theorem start_missed_off_foreground_monitor :
    (exampleConfig true false true false false .Disabled false).MAXIMISED_ENABLED = true
    ∧ (exampleConfig true false true false false .Disabled false).START_ENABLED = true
    ∧ (exampleState false true .REGULAR_APPEARANCE).start_opened = true
    ∧ 10 ≤ (exampleState false true .REGULAR_APPEARANCE).counter
    ∧ registered (exampleState false true .REGULAR_APPEARANCE) 1 = true
    ∧ hasQualifyingWindow (exampleSys 1 40 2 false "") 1 = true
    ∧ selectionAfter (SetTaskbarBlur (exampleConfig true false true false false .Disabled false)
        (exampleSys 1 40 2 false "") (exampleState false true .REGULAR_APPEARANCE)) 1
        = some .MAXIMISED_APPEARANCE
    ∧ selectionAfter (SetTaskbarBlur (exampleConfig true false true false false .Disabled false)
        (exampleSys 1 40 2 false "") (exampleState false true .REGULAR_APPEARANCE)) 1
        ≠ some .START_APPEARANCE := by
  decide

/-- C1, witness: the maximized window and the foreground window both lie on
monitor `1`; the pass completes and leaves monitor `1` on `START_APPEARANCE`. -/
theorem start_precedes_maximised_on_foreground_monitor_witness :
    ∃ s2, SetTaskbarBlur (exampleConfig true false true false false .Disabled false)
        (exampleSys 1 40 1 false "") (exampleState false true .REGULAR_APPEARANCE) = .ok s2
      ∧ selection s2 1 = some AppearancePtr.START_APPEARANCE
      ∧ selection s2 1 ≠ some AppearancePtr.MAXIMISED_APPEARANCE := by
  have h := start_precedes_maximised_on_foreground_monitor
    (exampleConfig true false true false false .Disabled false) (exampleSys 1 40 1 false "")
    (exampleState false true .REGULAR_APPEARANCE) 1
    (by decide) (by decide) (by decide) (by decide) (by decide) (by decide) (by decide)
  obtain ⟨s2, hrun⟩ := h.1 (by decide)
  exact ⟨s2, hrun, (h.2 s2 hrun).1, (h.2 s2 hrun).2⟩

/-- C2, witness: the foreground window `40` has the legacy task view class while
monitor `1` holds a maximized window. -/
theorem timeline_overrides_every_monitor_witness :
    ∃ s2, SetTaskbarBlur (exampleConfig true false true false true .Dynamic false)
        (exampleSys 1 40 2 false "MultitaskingViewFrame")
        (exampleState false true .REGULAR_APPEARANCE) = .ok s2
      ∧ s2.taskbars = [(1, (10, .TIMELINE_APPEARANCE)), (2, (20, .TIMELINE_APPEARANCE))] := by
  have h := timeline_overrides_every_monitor
    (exampleConfig true false true false true .Dynamic false)
    (exampleSys 1 40 2 false "MultitaskingViewFrame")
    (exampleState false true .REGULAR_APPEARANCE)
    (by decide) (by decide) (by decide) (by decide)
  obtain ⟨s2, hrun⟩ := h.1 (by decide)
  exact ⟨s2, hrun, (h.2 s2 hrun).1⟩

/-- C3, witness: desktop peek is active while monitor `1` holds a maximized
window and the start menu is open on monitor `2`. -/
theorem peek_reverts_every_monitor_witness :
    ∃ s2, SetTaskbarBlur (exampleConfig true true true false true .Dynamic false)
        (exampleSys 1 40 2 false "") (exampleState true true .TIMELINE_APPEARANCE) = .ok s2
      ∧ s2.taskbars = [(1, (10, .REGULAR_APPEARANCE)), (2, (20, .REGULAR_APPEARANCE))] := by
  have h := peek_reverts_every_monitor (exampleConfig true true true false true .Dynamic false)
    (exampleSys 1 40 2 false "") (exampleState true true .TIMELINE_APPEARANCE)
    (by decide) (by decide) (by decide) (by decide) (by decide)
  obtain ⟨s2, hrun⟩ := h.1 (by decide)
  exact ⟨s2, hrun, (h.2 s2 hrun).1⟩

/-- C4, counterexample. The foreground window `40` on monitor `2` is present and
cloaked, start appearance is enabled and the start menu is open. Step 4 changes
the selection of monitor `2` from regular to `START_APPEARANCE`, and so does the
whole pass. -/
theorem start_applied_to_cloaked_foreground :
    (exampleSys 1 40 2 true "").ForegroundWindow ≠ NullWindow
    ∧ (exampleSys 1 40 2 true "").cloaked (exampleSys 1 40 2 true "").ForegroundWindow = true
    ∧ (exampleConfig false false true true false .Disabled false).START_ENABLED = true
    ∧ (exampleState false true .REGULAR_APPEARANCE).start_opened = true
    ∧ selection (exampleState false true .REGULAR_APPEARANCE) 2 = some .REGULAR_APPEARANCE
    ∧ selectionAfter (foregroundOverrides (exampleConfig false false true true false .Disabled false)
        (exampleSys 1 40 2 true "") (exampleState false true .REGULAR_APPEARANCE)) 2
        = some .START_APPEARANCE
    ∧ selectionAfter (SetTaskbarBlur (exampleConfig false false true true false .Disabled false)
        (exampleSys 1 40 2 true "") (exampleState false true .REGULAR_APPEARANCE)) 2
        = some .START_APPEARANCE := by
  decide

/-- C4, witness: the cloaked foreground window `40` on monitor `1`, with the
search assistant and start appearances enabled and the start menu open. -/
theorem cloaked_foreground_blocks_search_not_start_witness :
    ∃ s2, foregroundOverrides (exampleConfig true false true true false .Dynamic false)
        (exampleSys 2 40 1 true "") (exampleState false true .MAXIMISED_APPEARANCE) = .ok s2
      ∧ selection s2 1 = some AppearancePtr.START_APPEARANCE
      ∧ selection s2 2 = some AppearancePtr.MAXIMISED_APPEARANCE := by
  have h := cloaked_foreground_blocks_search_not_start
    (exampleConfig true false true true false .Dynamic false) (exampleSys 2 40 1 true "")
    (exampleState false true .MAXIMISED_APPEARANCE) (by decide) (by decide)
  obtain ⟨s2, hrun⟩ := h.1 (by decide)
  refine ⟨s2, hrun, ?_, ?_⟩
  · rw [(h.2 s2 hrun).2 1]
    decide
  · rw [(h.2 s2 hrun).2 2]
    decide

/-- C5, witness: peek always enabled, a maximized window on monitor `1`. -/
theorem peek_flag_fixed_outside_dynamic_witness :
    ∃ s2, SetTaskbarBlur (exampleConfig true false false false false .Enabled true)
        (exampleSys 1 40 2 false "") (exampleState false false .REGULAR_APPEARANCE) = .ok s2
      ∧ s2.should_show_peek = true := by
  have h := peek_flag_fixed_outside_dynamic (exampleConfig true false false false false .Enabled true)
    (exampleSys 1 40 2 false "") (exampleState false false .REGULAR_APPEARANCE) (by decide)
  obtain ⟨s2, hrun⟩ := h.1 (by decide)
  exact ⟨s2, hrun, (h.2 s2 hrun).1 rfl⟩

/-- C6, counterexample. Maximised appearance on, timeline, start and search
assistant off, peek dynamic, the only qualifying window `30` on monitor `2`,
whose taskbar `20` is not the main taskbar `10`; revert on peek is configured
and desktop peek is active. The pass leaves monitor `2` on `REGULAR_APPEARANCE`,
not on `MAXIMISED_APPEARANCE`. -/
theorem maximised_lost_while_peeking :
    (exampleConfig true true false false false .Dynamic true).MAXIMISED_ENABLED = true
    ∧ (exampleConfig true true false false false .Dynamic true).TIMELINE_ENABLED = false
    ∧ (exampleConfig true true false false false .Dynamic true).START_ENABLED = false
    ∧ (exampleConfig true true false false false .Dynamic true).CORTANA_ENABLED = false
    ∧ (exampleConfig true true false false false .Dynamic true).PEEK = .Dynamic
    ∧ (exampleSys 2 40 1 false "").EnumWindows.filter (qualifies (exampleSys 2 40 1 false ""))
        = [30]
    ∧ (exampleSys 2 40 1 false "").monitor 30 = 2
    ∧ umap_find (frame (exampleState true false .REGULAR_APPEARANCE).taskbars) 2 = some 20
    ∧ (20 : Window) ≠ (exampleState true false .REGULAR_APPEARANCE).main_taskbar
    ∧ 10 ≤ (exampleState true false .REGULAR_APPEARANCE).counter
    ∧ selectionAfter (SetTaskbarBlur (exampleConfig true true false false false .Dynamic true)
        (exampleSys 2 40 1 false "") (exampleState true false .REGULAR_APPEARANCE)) 2
        = some .REGULAR_APPEARANCE := by
  decide

/-- C6, witness: the same desktop without desktop peek, with only the main
monitor counting for the peek flag. -/
theorem dynamic_peek_single_maximised_window_witness :
    ∃ s2, SetTaskbarBlur (exampleConfig true true false false false .Dynamic true)
        (exampleSys 2 40 1 false "") (exampleState false false .REGULAR_APPEARANCE) = .ok s2
      ∧ selection s2 ((exampleSys 2 40 1 false "").monitor 30)
          = some AppearancePtr.MAXIMISED_APPEARANCE
      ∧ s2.should_show_peek = !(exampleConfig true true false false false .Dynamic true).PEEK_ONLY_MAIN :=
  dynamic_peek_single_maximised_window (exampleConfig true true false false false .Dynamic true)
    (exampleSys 2 40 1 false "") (exampleState false false .REGULAR_APPEARANCE) 30 20
    (by decide) (by decide) (by decide) (by decide) (by decide) (by decide) (by decide)
    (by decide) (by decide) (by decide)

theorem mem_keys_assign {V : Type} (t : List (Nat × V)) (k : Nat) (v : V) (m : Nat) :
    m ∈ (umap_assign t k v).map Prod.fst ↔ m = k ∨ m ∈ t.map Prod.fst := by
  induction t with
  | nil => simp [umap_assign]
  | cons hd tl ih =>
    obtain ⟨k2, v2⟩ := hd
    by_cases hk : k2 = k
    · subst hk
      simp [umap_assign]
    · simp only [umap_assign, hk, if_false, List.map_cons, List.mem_cons, ih]
      constructor
      · rintro (h | h | h)
        · exact Or.inr (Or.inl h)
        · exact Or.inl h
        · exact Or.inr (Or.inr h)
      · rintro (h | h | h)
        · exact Or.inr (Or.inl h)
        · exact Or.inl h
        · exact Or.inr (Or.inr h)

theorem nodup_keys_assign {V : Type} (t : List (Nat × V)) (k : Nat) (v : V)
    (h : (t.map Prod.fst).Nodup) : ((umap_assign t k v).map Prod.fst).Nodup := by
  induction t with
  | nil => simp [umap_assign]
  | cons hd tl ih =>
    obtain ⟨k2, v2⟩ := hd
    simp only [List.map_cons, List.nodup_cons] at h
    by_cases hk : k2 = k
    · subst hk
      simp only [umap_assign, if_true, List.map_cons, List.nodup_cons]
      exact h
    · simp only [umap_assign, hk, if_false, List.map_cons, List.nodup_cons]
      refine ⟨?_, ih h.2⟩
      rw [mem_keys_assign]
      rintro (h1 | h1)
      · exact hk h1
      · exact h.1 h1

theorem mem_assign {V : Type} (t : List (Nat × V)) (k : Nat) (v : V) (e : Nat × V)
    (h : e ∈ umap_assign t k v) : e = (k, v) ∨ e ∈ t := by
  induction t with
  | nil =>
    simp only [umap_assign, List.mem_singleton] at h
    exact Or.inl h
  | cons hd tl ih =>
    obtain ⟨k2, v2⟩ := hd
    by_cases hk : k2 = k
    · subst hk
      simp only [umap_assign, if_true, List.mem_cons] at h
      rcases h with h | h
      · exact Or.inl h
      · exact Or.inr (List.mem_cons_of_mem _ h)
    · simp only [umap_assign, hk, if_false, List.mem_cons] at h
      rcases h with h | h
      · exact Or.inr (by rw [h]; exact List.mem_cons_self _ _)
      · rcases ih h with h2 | h2
        · exact Or.inl h2
        · exact Or.inr (List.mem_cons_of_mem _ h2)

/-- Binding windows to their monitors keeps one binding per monitor, adds
exactly the monitors of the windows, and adds only regular bindings of those
windows. -/
theorem bindAll_spec (sys : Sys) (windows : List Window)
    (t : List (HMONITOR × (Window × AppearancePtr))) (h : (t.map Prod.fst).Nodup) :
    ((bindAll sys windows t).map Prod.fst).Nodup
    ∧ (∀ m, m ∈ (bindAll sys windows t).map Prod.fst
        ↔ m ∈ t.map Prod.fst ∨ ∃ w ∈ windows, sys.monitor w = m)
    ∧ (∀ taskbar ∈ bindAll sys windows t, taskbar ∈ t
        ∨ (taskbar.2.2 = AppearancePtr.REGULAR_APPEARANCE ∧ taskbar.2.1 ∈ windows
          ∧ sys.monitor taskbar.2.1 = taskbar.1)) := by
  induction windows generalizing t with
  | nil =>
    refine ⟨h, ?_, ?_⟩
    · intro m
      simp [bindAll]
    · intro taskbar hmem
      exact Or.inl hmem
  | cons w rest ih =>
    have hstep : bindAll sys (w :: rest) t
        = bindAll sys rest (umap_assign t (sys.monitor w) (w, .REGULAR_APPEARANCE)) := rfl
    rw [hstep]
    obtain ⟨hnd, hkeys, hent⟩ := ih (umap_assign t (sys.monitor w) (w, .REGULAR_APPEARANCE))
      (nodup_keys_assign t _ _ h)
    refine ⟨hnd, ?_, ?_⟩
    · intro m
      rw [hkeys m, mem_keys_assign]
      constructor
      · rintro ((h1 | h1) | ⟨x, hx, hm⟩)
        · exact Or.inr ⟨w, List.mem_cons_self _ _, h1.symm⟩
        · exact Or.inl h1
        · exact Or.inr ⟨x, List.mem_cons_of_mem _ hx, hm⟩
      · rintro (h1 | ⟨x, hx, hm⟩)
        · exact Or.inl (Or.inr h1)
        · rcases List.mem_cons.mp hx with heq | hr
          · subst heq
            exact Or.inl (Or.inl hm.symm)
          · exact Or.inr ⟨x, hr, hm⟩
    · intro taskbar hmem
      rcases hent taskbar hmem with h1 | ⟨h1, h2, h3⟩
      · rcases mem_assign t _ _ taskbar h1 with h4 | h4
        · subst h4
          exact Or.inr ⟨rfl, List.mem_cons_self _ _, rfl⟩
        · exact Or.inl h4
      · exact Or.inr ⟨h1, List.mem_cons_of_mem _ h2, h3⟩

/-- The loop over the secondary taskbars returns once the finder has returned
each of them, given fuel for one more call than there are taskbars. -/
theorem secondaryTaskbarsLoop_spec (sys : Sys) (secondaries : List Window) (previous : Window)
    (t : List (HMONITOR × (Window × AppearancePtr))) (fuel : Nat)
    (hdisc : discovers sys previous secondaries = true) (hfuel : secondaries.length < fuel) :
    secondaryTaskbarsLoop sys fuel previous t = some (bindAll sys secondaries t) := by
  induction secondaries generalizing previous t fuel with
  | nil =>
    cases fuel with
    | zero => simp at hfuel
    | succ n =>
      simp only [discovers, beq_iff_eq] at hdisc
      simp [secondaryTaskbarsLoop, hdisc, bindAll]
  | cons w rest ih =>
    cases fuel with
    | zero => simp at hfuel
    | succ n =>
      simp only [discovers, Bool.and_eq_true, beq_iff_eq, bne_iff_ne, ne_eq] at hdisc
      obtain ⟨⟨hfind, hne⟩, hrest⟩ := hdisc
      have hlen : rest.length < n := by
        simp only [List.length_cons] at hfuel
        omega
      have := ih w (umap_assign t (sys.monitor w) (w, .REGULAR_APPEARANCE)) n hrest hlen
      simp only [secondaryTaskbarsLoop, hfind, ne_eq, hne, not_false_eq_true, if_true]
      rw [this]
      rfl

/-- C12. For every prior content of `run.taskbars` and every sequence of
secondary taskbars the finder returns after the primary lookup,
`RefreshHandles()` returns (given fuel for the calls of the finder) with a
registry built from the empty map out of the looked-up primary and the
discovered secondary taskbars alone: one binding per monitor, the keys exactly
the monitors of those windows, and every binding a regular binding of one of
those windows on its own monitor, so nothing survives from before the call. -/
theorem RefreshHandles_rebuilds (sys : Sys) (s : State) (secondaries : List Window) (fuel : Nat)
    (hdisc : discovers sys NullWindow secondaries = true) (hfuel : secondaries.length < fuel) :
    ∃ s2, RefreshHandles sys fuel s = some s2
      ∧ s2.main_taskbar = sys.Find "Shell_TrayWnd" "" NullWindow NullWindow
      ∧ s2.taskbars
          = bindAll sys (sys.Find "Shell_TrayWnd" "" NullWindow NullWindow :: secondaries) []
      ∧ (s2.taskbars.map Prod.fst).Nodup
      ∧ (∀ m, m ∈ s2.taskbars.map Prod.fst
          ↔ ∃ w ∈ sys.Find "Shell_TrayWnd" "" NullWindow NullWindow :: secondaries,
              sys.monitor w = m)
      ∧ (∀ taskbar ∈ s2.taskbars,
          taskbar.2.2 = AppearancePtr.REGULAR_APPEARANCE
          ∧ taskbar.2.1 ∈ sys.Find "Shell_TrayWnd" "" NullWindow NullWindow :: secondaries
          ∧ sys.monitor taskbar.2.1 = taskbar.1) := by
  have hloop := secondaryTaskbarsLoop_spec sys secondaries NullWindow
    (umap_assign [] (sys.monitor (sys.Find "Shell_TrayWnd" "" NullWindow NullWindow))
      (sys.Find "Shell_TrayWnd" "" NullWindow NullWindow, .REGULAR_APPEARANCE))
    fuel hdisc hfuel
  have hbind : bindAll sys secondaries
      (umap_assign [] (sys.monitor (sys.Find "Shell_TrayWnd" "" NullWindow NullWindow))
        (sys.Find "Shell_TrayWnd" "" NullWindow NullWindow, .REGULAR_APPEARANCE))
      = bindAll sys (sys.Find "Shell_TrayWnd" "" NullWindow NullWindow :: secondaries) [] := rfl
  obtain ⟨hnd, hkeys, hent⟩ := bindAll_spec sys
    (sys.Find "Shell_TrayWnd" "" NullWindow NullWindow :: secondaries) [] (by simp)
  refine ⟨{ s with
      main_taskbar := sys.Find "Shell_TrayWnd" "" NullWindow NullWindow
      taskbars := bindAll sys
        (sys.Find "Shell_TrayWnd" "" NullWindow NullWindow :: secondaries) [] },
    ?_, rfl, rfl, hnd, ?_, ?_⟩
  · unfold RefreshHandles
    simp only
    rw [hloop, hbind]
  · intro m
    rw [hkeys m]
    simp
  · intro taskbar hmem
    rcases hent taskbar hmem with h1 | h1
    · simp at h1
    · exact h1

/-- C11, the code at the failing input. The lookup of `Shell_TrayWnd` returns
the null window and there is no secondary taskbar; after `RefreshHandles()` the
registry holds a binding whose window is the null window, under the monitor the
null window reports. -/
theorem primary_missing_still_bound :
    (exampleFinder NullWindow false).Find "Shell_TrayWnd" "" NullWindow NullWindow = NullWindow
    ∧ discovers (exampleFinder NullWindow false) NullWindow [] = true
    ∧ taskbarsAfter (RefreshHandles (exampleFinder NullWindow false) 1
        (exampleState false false .START_APPEARANCE))
        = some [(3, (NullWindow, .REGULAR_APPEARANCE))] := by
  decide

/-- C12, witness: the finder returns the primary taskbar `10` and the secondary
taskbars `20` and `21`, over a registry that held start bindings. -/
theorem RefreshHandles_rebuilds_witness :
    ∃ s2, RefreshHandles (exampleFinder 10 true) 3 (exampleState false false .START_APPEARANCE)
        = some s2
      ∧ s2.taskbars = [(1, (10, .REGULAR_APPEARANCE)), (2, (20, .REGULAR_APPEARANCE)),
          (3, (21, .REGULAR_APPEARANCE))] := by
  obtain ⟨s2, hrun, -, htb, -⟩ := RefreshHandles_rebuilds (exampleFinder 10 true)
    (exampleState false false .START_APPEARANCE) [20, 21] 3 (by decide) (by decide)
  exact ⟨s2, hrun, htb.trans (by decide)⟩

/-! ## The peek memo (C13) -/

theorem layered_set (x : Nat) : (x ||| WS_EX_LAYERED) &&& WS_EX_LAYERED = WS_EX_LAYERED := by
  apply Nat.eq_of_testBit_eq
  intro i
  simp only [Nat.testBit_and, Nat.testBit_or]
  cases x.testBit i <;> cases WS_EX_LAYERED.testBit i <;> rfl

/-- After any call the memo is the status just passed and the current main
taskbar. -/
theorem TogglePeek_memo_after (sys : Sys) (status : Bool) (s : State) :
    (TogglePeek sys status s).cached_peek = status
    ∧ memoTaskbar (TogglePeek sys status s) = s.main_taskbar
    ∧ (TogglePeek sys status s).main_taskbar = s.main_taskbar := by
  unfold TogglePeek
  simp only
  by_cases hc : (status ≠ s.cached_peek ∨
      (match s.cached_taskbar with
        | some w => w
        | none => s.main_taskbar) ≠ s.main_taskbar)
  · rw [if_pos hc]
    split <;> simp [memoTaskbar]
  · rw [if_neg hc]
    obtain ⟨h1, h2⟩ := not_or.mp hc
    simp only [ne_eq, not_not] at h1 h2
    exact ⟨h1.symm, h2, rfl⟩

/-- A call that finds its status and the main taskbar in the memo changes
nothing but the initialisation of the static. -/
theorem TogglePeek_same (sys : Sys) (status : Bool) (s : State)
    (hp : status = s.cached_peek) (ht : memoTaskbar s = s.main_taskbar) :
    (TogglePeek sys status s).effects = s.effects
    ∧ (TogglePeek sys status s).exstyle = s.exstyle
    ∧ (TogglePeek sys status s).cached_peek = s.cached_peek
    ∧ memoTaskbar (TogglePeek sys status s) = memoTaskbar s := by
  have hc : ¬ (status ≠ s.cached_peek ∨
      (match s.cached_taskbar with
        | some w => w
        | none => s.main_taskbar) ≠ s.main_taskbar) := by
    rw [not_or]
    exact ⟨fun h => h hp, fun h => h ht⟩
  unfold TogglePeek
  simp only
  rw [if_neg hc]
  exact ⟨rfl, rfl, rfl, rfl⟩

/-- A call that does not find its status and the main taskbar in the memo sets
or clears the layered flag of the peek button. -/
theorem TogglePeek_changed (sys : Sys) (status : Bool) (s : State)
    (h : ¬ (status = s.cached_peek ∧ memoTaskbar s = s.main_taskbar)) :
    (status = false →
        (TogglePeek sys status s).effects = s.effects ++
          [Effect.SetWindowLong (peekButton sys s.main_taskbar) GWL_EXSTYLE
              (s.exstyle (peekButton sys s.main_taskbar) ||| WS_EX_LAYERED),
            Effect.SetLayeredWindowAttributes (peekButton sys s.main_taskbar) 0 0 LWA_ALPHA]
        ∧ (TogglePeek sys status s).exstyle (peekButton sys s.main_taskbar)
            = s.exstyle (peekButton sys s.main_taskbar) ||| WS_EX_LAYERED)
    ∧ (status = true →
        (TogglePeek sys status s).effects = s.effects ++
          [Effect.SetWindowLong (peekButton sys s.main_taskbar) GWL_EXSTYLE
              (s.exstyle (peekButton sys s.main_taskbar) &&& (0xFFFFFFFF - WS_EX_LAYERED))]
        ∧ (TogglePeek sys status s).exstyle (peekButton sys s.main_taskbar)
            = s.exstyle (peekButton sys s.main_taskbar) &&& (0xFFFFFFFF - WS_EX_LAYERED)) := by
  have hc : (status ≠ s.cached_peek ∨
      (match s.cached_taskbar with
        | some w => w
        | none => s.main_taskbar) ≠ s.main_taskbar) := by
    by_cases hp : status = s.cached_peek
    · right
      intro ht
      exact h ⟨hp, ht⟩
    · left
      exact hp
  unfold TogglePeek
  simp only
  rw [if_pos hc]
  refine ⟨?_, ?_⟩
  · intro hs
    rw [if_pos hs]
    simp
  · intro hs
    have hne : ¬ status = false := by simp [hs]
    rw [if_neg hne]
    simp

theorem styleChanges_append (a b : List Effect) :
    styleChanges (a ++ b) = styleChanges a + styleChanges b := by
  simp [styleChanges, List.countP_append]

/-- C13. For every call `TogglePeek(status)`: if `status` equals the memoized
visibility and `run.main_taskbar` equals the memoized taskbar, the call changes
no window style and leaves the memo as it is; otherwise it sets the layered flag
of the peek button (hide) or clears it (show), each with one `SetWindowLong`,
and in every case the memo afterwards is `(status, run.main_taskbar)`. So a
second call with the same status and main taskbar changes nothing, and the two
calls together change the style at most once. -/
theorem TogglePeek_memoizes (sys : Sys) (status : Bool) (s : State) :
    (status = s.cached_peek ∧ memoTaskbar s = s.main_taskbar →
        (TogglePeek sys status s).effects = s.effects
        ∧ (TogglePeek sys status s).exstyle = s.exstyle
        ∧ (TogglePeek sys status s).cached_peek = s.cached_peek
        ∧ memoTaskbar (TogglePeek sys status s) = memoTaskbar s)
    ∧ (¬ (status = s.cached_peek ∧ memoTaskbar s = s.main_taskbar) →
        styleChanges (TogglePeek sys status s).effects = styleChanges s.effects + 1
        ∧ (status = false →
            (TogglePeek sys status s).exstyle (peekButton sys s.main_taskbar)
                = s.exstyle (peekButton sys s.main_taskbar) ||| WS_EX_LAYERED
            ∧ (TogglePeek sys status s).exstyle (peekButton sys s.main_taskbar)
                &&& WS_EX_LAYERED = WS_EX_LAYERED)
        ∧ (status = true →
            (TogglePeek sys status s).exstyle (peekButton sys s.main_taskbar)
                &&& WS_EX_LAYERED = 0))
    ∧ ((TogglePeek sys status s).cached_peek = status
        ∧ memoTaskbar (TogglePeek sys status s) = s.main_taskbar)
    ∧ ((TogglePeek sys status (TogglePeek sys status s)).effects
          = (TogglePeek sys status s).effects
        ∧ (TogglePeek sys status (TogglePeek sys status s)).exstyle
          = (TogglePeek sys status s).exstyle
        ∧ styleChanges (TogglePeek sys status (TogglePeek sys status s)).effects
          ≤ styleChanges s.effects + 1) := by
  obtain ⟨hpeek, hmemo, hmain⟩ := TogglePeek_memo_after sys status s
  have hsecond := TogglePeek_same sys status (TogglePeek sys status s) hpeek.symm
    (hmemo.trans hmain.symm)
  have hchanged : ¬ (status = s.cached_peek ∧ memoTaskbar s = s.main_taskbar) →
      styleChanges (TogglePeek sys status s).effects = styleChanges s.effects + 1 := by
    intro h
    obtain ⟨hhide, hshow⟩ := TogglePeek_changed sys status s h
    rcases Bool.eq_false_or_eq_true status with hs | hs
    · rw [(hshow hs).1, styleChanges_append]
      rfl
    · rw [(hhide hs).1, styleChanges_append]
      rfl
  refine ⟨fun h => TogglePeek_same sys status s h.1 h.2, ?_, ⟨hpeek, hmemo⟩,
    hsecond.1, hsecond.2.1, ?_⟩
  · intro h
    obtain ⟨hhide, hshow⟩ := TogglePeek_changed sys status s h
    refine ⟨hchanged h, ?_, ?_⟩
    · intro hs
      refine ⟨(hhide hs).2, ?_⟩
      rw [(hhide hs).2]
      exact layered_set _
    · intro hs
      rw [(hshow hs).2]
      exact layered_cleared _
  · rw [hsecond.1]
    by_cases h : status = s.cached_peek ∧ memoTaskbar s = s.main_taskbar
    · rw [(TogglePeek_same sys status s h.1 h.2).1]
      omega
    · rw [hchanged h]

/-! ## The cadence of the decision pass (C14) -/

theorem SetTaskbarBlur_counter (cfg : Config) (sys : Sys) (s s2 : State)
    (hrun : SetTaskbarBlur cfg sys s = .ok s2) :
    s2.counter = if 10 ≤ s.counter then 0 else (s.counter + 1) % 2 ^ 8 := by
  by_cases hc : 10 ≤ s.counter
  · rw [if_pos hc]
    exact (SetTaskbarBlur_ok_spec cfg sys s s2 hc hrun).2.2.1
  · rw [if_neg hc]
    unfold SetTaskbarBlur at hrun
    simp only [ge_iff_le, hc, if_false] at hrun
    cases hrun
    exact (applyAll_frame cfg sys _).2.2

/-- Between two passes a tick only counts and applies: it completes, keeps the
registry with the selections of the last pass, and runs the application loop on
it. -/
theorem SetTaskbarBlur_between_passes (cfg : Config) (sys : Sys) (s : State)
    (hc : s.counter < 10) :
    SetTaskbarBlur cfg sys s
        = .ok (applyAll cfg sys { s with counter := (s.counter + 1) % 2 ^ 8 })
    ∧ (applyAll cfg sys { s with counter := (s.counter + 1) % 2 ^ 8 }).taskbars = s.taskbars := by
  refine ⟨?_, (applyAll_frame cfg sys _).1⟩
  unfold SetTaskbarBlur
  have : ¬ 10 ≤ s.counter := by omega
  simp only [ge_iff_le, this, if_false]

theorem ticks_counter (cfg : Config) (sys : Sys) (n : Nat) (s sn : State)
    (hc : s.counter ≤ 10) (hrun : ticks cfg sys n s = .ok sn) :
    sn.counter = (s.counter + n) % 11 := by
  induction n generalizing s with
  | zero =>
    simp only [ticks] at hrun
    cases hrun
    omega
  | succ n ih =>
    cases h1 : SetTaskbarBlur cfg sys s with
    | error e => simp [ticks, h1] at hrun
    | ok s1 =>
      simp only [ticks, h1] at hrun
      have hs1 := SetTaskbarBlur_counter cfg sys s s1 h1
      have hle : s1.counter ≤ 10 := by
        rw [hs1]
        split <;> omega
      have := ih s1 hle hrun
      rw [this, hs1]
      split <;> omega

/-- The cadence the code has: from a counter at its initial value `10`, tick `k`
runs the decision pass exactly when `k mod 11 = 1`, that is on ticks 1, 12,
23 and so on. -/
theorem decision_pass_cadence (cfg : Config) (sys : Sys) (s : State) (k : Nat) (b : Bool)
    (hinit : s.counter = 10) (hk : 1 ≤ k) (hrun : passRunsAtTick cfg sys s k = some b) :
    b = true ↔ k % 11 = 1 := by
  unfold passRunsAtTick at hrun
  cases h1 : ticks cfg sys (k - 1) s with
  | error e => simp [h1] at hrun
  | ok sk =>
    simp only [h1, Option.some.injEq] at hrun
    have hctr := ticks_counter cfg sys (k - 1) s sk (by omega) h1
    rw [← hrun]
    unfold runsDecisionPass
    simp only [ge_iff_le, decide_eq_true_eq]
    rw [hctr, hinit]
    omega

/-- C14, the code at the failing input. From the initial counter the first tick
runs the decision pass, but tick 11 (for which `11 mod 10 = 1`) does not: the
ten ticks after a pass count from 0 to 10, and the next pass runs on tick 12. -/
theorem eleventh_tick_skips_decision_pass :
    (exampleState false true .REGULAR_APPEARANCE).counter = 10
    ∧ passRunsAtTick (exampleConfig true false true false false .Dynamic true)
        (exampleSys 1 40 2 false "") (exampleState false true .REGULAR_APPEARANCE) 1 = some true
    ∧ 11 % 10 = 1
    ∧ passRunsAtTick (exampleConfig true false true false false .Dynamic true)
        (exampleSys 1 40 2 false "") (exampleState false true .REGULAR_APPEARANCE) 11
        = some false
    ∧ passRunsAtTick (exampleConfig true false true false false .Dynamic true)
        (exampleSys 1 40 2 false "") (exampleState false true .REGULAR_APPEARANCE) 12
        = some true := by
  decide

/-! ## Ticks that abort (C15) -/

/-- C15, counterexample. A qualifying maximized window on monitor `3`, which has
no binding, aborts the tick through `run.taskbars.at`; so does an open start
menu with the foreground window on monitor `3`; and so does the maximized
window on monitor `1` when the registry is empty. -/
theorem tick_aborts_on_unregistered_monitor :
    qualifies (exampleSys 3 40 2 false "") 30 = true
    ∧ registered (exampleState false false .REGULAR_APPEARANCE) 3 = false
    ∧ aborted (SetTaskbarBlur (exampleConfig true false false false false .Disabled false)
        (exampleSys 3 40 2 false "") (exampleState false false .REGULAR_APPEARANCE)) = true
    ∧ aborted (SetTaskbarBlur (exampleConfig false false true false false .Disabled false)
        (exampleSys 1 40 3 false "") (exampleState false true .REGULAR_APPEARANCE)) = true
    ∧ aborted (SetTaskbarBlur (exampleConfig true false false false false .Disabled false)
        (exampleSys 1 40 2 false "")
        { exampleState false false .REGULAR_APPEARANCE with taskbars := [] }) = true := by
  decide

/-- C15 (as amended). A tick that does not run the decision pass always
completes. A tick that runs it completes exactly when every lookup
`run.taskbars.at(monitor)` it evaluates finds its key (every qualifying
maximized window when the enumeration runs, and the foreground window when a
search-assistant or start override fires, lies on a registered monitor);
otherwise the lookup fails with `out_of_range` and the tick is aborted. -/
theorem tick_completes_iff_lookups_succeed (cfg : Config) (sys : Sys) (s : State) :
    (s.counter < 10 → ∃ s2, SetTaskbarBlur cfg sys s = .ok s2)
    ∧ (10 ≤ s.counter →
        ((∃ s2, SetTaskbarBlur cfg sys s = .ok s2) ↔ lookupsSucceed cfg sys s)
        ∧ (¬ lookupsSucceed cfg sys s → SetTaskbarBlur cfg sys s = .error .out_of_range)) := by
  refine ⟨fun hc => ⟨_, (SetTaskbarBlur_between_passes cfg sys s hc).1⟩, ?_⟩
  intro hc
  have hiff := SetTaskbarBlur_completes_iff cfg sys s hc
  refine ⟨hiff, ?_⟩
  intro hn
  cases hr : SetTaskbarBlur cfg sys s with
  | ok s2 => exact absurd (hiff.mp ⟨s2, hr⟩) hn
  | error e =>
    cases e
    rfl

/-- C15, on concrete desktops: with an empty registry and no window that
triggers a lookup the pass completes. -/
theorem tick_completes_iff_lookups_succeed_witness :
    ∃ s2, SetTaskbarBlur (exampleConfig false false false false true .Enabled false)
        (exampleSys 1 40 2 false "")
        { exampleState false true .REGULAR_APPEARANCE with taskbars := [] } = .ok s2 :=
  ((tick_completes_iff_lookups_succeed (exampleConfig false false false false true .Enabled false)
      (exampleSys 1 40 2 false "")
      { exampleState false true .REGULAR_APPEARANCE with taskbars := [] }).2 (by decide)).1.mpr
    (by decide)

/-- C13, on a concrete desktop: hiding peek twice on the initial memo changes the
style once. -/
theorem TogglePeek_memoizes_witness :
    styleChanges (TogglePeek (exampleSys 1 40 2 false "") false
        (TogglePeek (exampleSys 1 40 2 false "") false
          (exampleState false false .REGULAR_APPEARANCE))).effects
      ≤ styleChanges (exampleState false false .REGULAR_APPEARANCE).effects + 1 :=
  (TogglePeek_memoizes (exampleSys 1 40 2 false "") false
    (exampleState false false .REGULAR_APPEARANCE)).2.2.2.2.2

/-! ## The memos agree with the shell on every reachable state -/

end TranslucentTB
